import Mathlib

/-!
# developer-events-mcp: the CFP data pipeline of `main.go`

A shallow embedding of the cache (`fetchCFPs`), the open filter (`getOpenCFPs`), the
projection (`toCFPResult`), the two matchers and the four tool handlers registered by
`createServer`, followed by the properties proved about them.

Conventions of the embedding.
* Go's `int64` (and `int`, taken to be 64 bits wide) is `Int`; every `+`, `-` and `*` of the
  source is followed by `wrapInt64`, Go's two's-complement wrap-around. `/` is `Int.tdiv`.
* A Go `string` is a `String`; `strings.Contains` is the infix relation on the characters.
* Each `time.Now()` of the source is a separate reading, collected in `Clock`.
* The process-wide variable `cache` is threaded explicitly: functions take the slot and
  return the new slot.
* Standard-library routines whose code is not part of the repository (`strings.ToLower`,
  `sort.Slice`, `Time.Format`, `http.Get`, `json.Unmarshal`) are parameters; `sortSlice` and
  `goFormatDate` transcribe what the library does for two of them.
-/

namespace DevEvents

/-! ## Data model (main.go, lines 23-100) -/

/-- Conference record of the upstream feed (`type Conference`). -/
structure Conference where
  name : String
  date : List Int
  hyperlink : String
  status : String
  location : String
deriving DecidableEq, Repr

/-- One call for papers of the upstream feed (`type CFP`); `conf = none` is the nil pointer. -/
structure CFP where
  link : String
  untilLabel : String
  untilDate : Int
  conf : Option Conference
deriving DecidableEq, Repr

/-- Externally visible projection of a CFP (`type CFPResult`). -/
structure CFPResult where
  conference : String
  location : String
  cfpDeadline : String
  daysRemaining : Int
  conferenceDate : String
  cfpLink : String
  conferenceWebsite : String
  status : String
deriving DecidableEq, Repr

/-- Snapshot held by the cache slot (`type CFPCache`); `timestamp` is an instant in
nanoseconds. -/
structure CFPCache where
  data : List CFP
  timestamp : Int
deriving DecidableEq, Repr

structure ListOpenCFPsArgs where
  limit : Int
deriving DecidableEq, Repr

structure SearchByKeywordArgs where
  keywords : List String
  limit : Int
deriving DecidableEq, Repr

structure FindClosingCFPsArgs where
  daysAhead : Int
  keywords : List String
deriving DecidableEq, Repr

structure SearchByLocationArgs where
  location : String
  limit : Int
deriving DecidableEq, Repr

/-- Payload of `list_open_cfps`; the default value is Go's zero value. -/
structure ListOpenCFPsResponse where
  totalOpen : Int := 0
  returned : Int := 0
  cfps : List CFPResult := []
deriving DecidableEq, Repr

/-- Payload of `search_cfps_by_keyword`; the default value is Go's zero value. -/
structure SearchByKeywordResponse where
  searchKeywords : List String := []
  totalMatches : Int := 0
  cfps : List CFPResult := []
deriving DecidableEq, Repr

/-- Payload of `find_closing_cfps`; the default value is Go's zero value. -/
structure FindClosingCFPsResponse where
  daysAhead : Int := 0
  filterKeywords : String := ""
  urgentCFPs : Int := 0
  cfps : List CFPResult := []
deriving DecidableEq, Repr

/-- Payload of `search_cfps_by_location`; the default value is Go's zero value. -/
structure SearchByLocationResponse where
  searchLocation : String := ""
  totalMatches : Int := 0
  cfps : List CFPResult := []
deriving DecidableEq, Repr

/-! ## Machine arithmetic and time -/

/-- Two's-complement wrap-around of a 64-bit signed integer. -/
def wrapInt64 (x : Int) : Int :=
  (x + 9223372036854775808) % 18446744073709551616 - 9223372036854775808

/-- Predicate saying that `x` is representable as an `int64`. -/
def inInt64 (x : Int) : Prop :=
  -9223372036854775808 ≤ x ∧ x ≤ 9223372036854775807

instance (x : Int) : Decidable (inInt64 x) := by
  unfold inInt64; infer_instance

/-- Number of milliseconds in a day, the constant `86400000` of the source. -/
def msPerDay : Int := 86400000

/-- Constant `cacheTTL = 1 * time.Hour`, in nanoseconds (main.go, line 20). -/
def cacheTTL : Int := 3600000000000

/-- Largest `time.Duration`. -/
def maxDuration : Int := 9223372036854775807

/-- Smallest `time.Duration`. -/
def minDuration : Int := -9223372036854775808

/-- Method `Time.Sub` on instants in nanoseconds: the difference, saturated to the range of
a `time.Duration`. -/
def timeSub (t u : Int) : Int :=
  max minDuration (min maxDuration (t - u))

/-- Clock readings of one tool invocation, one field per `time.Now()` of the source:
`fetch` in `fetchCFPs` (nanoseconds), `openMs` in `getOpenCFPs`, `windowMs` in the
`find_closing_cfps` handler and `projectMs i` in the call of `toCFPResult` that fills
`results[i]` (all three in epoch milliseconds). -/
structure Clock where
  fetch : Int
  openMs : Int
  windowMs : Int
  projectMs : Nat → Int

/-- Clock of an invocation whose millisecond readings all return the one instant `now`. -/
def Clock.atInstant (fetch now : Int) : Clock :=
  { fetch := fetch, openMs := now, windowMs := now, projectMs := fun _ => now }

/-! ## Standard-library parameters -/

/-- Requirement that `sort` puts on its comparison: a strict weak ordering. -/
structure LessContract (less : CFP → CFP → Bool) : Prop where
  irrefl : ∀ a, less a a = false
  trans : ∀ a b c, less a b = true → less b c = true → less a c = true
  negTrans : ∀ a b c, less a b = false → less b c = false → less a c = false

/-- Function `sort.Slice` as its documentation describes it: the slice is rearranged (a
permutation) so that no element is less than an earlier one. The documentation adds that
the sort is not guaranteed to be stable, so nothing is assumed about ties. -/
structure SliceSorter where
  sort : (CFP → CFP → Bool) → List CFP → List CFP
  perm : ∀ less l, (sort less l).Perm l
  ordered : ∀ less l, LessContract less → (sort less l).Pairwise (fun a b => less b a = false)

/-- Standard-library routines used by the pipeline: `strings.ToLower`, `sort.Slice` and
`time.UnixMilli(ms).Format("2006-01-02")`. -/
structure StdLib where
  toLower : String → String
  sorter : SliceSorter
  formatDate : Int → String

/-- Function `strings.Contains`. -/
def contains (s substr : String) : Bool :=
  decide (substr.data <:+: s.data)

/-- Lower-casing of the ASCII letters, which is what `strings.ToLower` does on ASCII text. -/
def asciiToLower (s : String) : String :=
  ⟨s.data.map Char.toLower⟩

/-! ## Cache and feed client (main.go, lines 102-134) -/

/-- Errors built by `fetchCFPs`, one constructor per `fmt.Errorf`. -/
inductive FetchError where
  | fetchFailed (cause : String)
  | httpStatus (code : Int)
  | readFailed (cause : String)
  | parseFailed (cause : String)
deriving DecidableEq, Repr

/-- Response of the upstream server: its status code and the outcome of `io.ReadAll` on
its body. -/
structure HttpResponse where
  statusCode : Int
  body : Except String String

/-- Behaviour of the network and of the decoder during one call: the outcome of
`http.Get(apiURL)` and the function `json.Unmarshal` into a `[]CFP`. -/
structure Upstream where
  get : Except String HttpResponse
  unmarshal : String → Except String (List CFP)

/-- What one call of `fetchCFPs` yields: the returned pair, the cache slot afterwards and
the number of `http.Get` calls made. -/
structure FetchOutcome where
  result : Except FetchError (List CFP)
  cache : Option CFPCache
  fetches : Nat

/-- Lines 108-133 of `fetchCFPs`: the upstream fetch and the installation of the snapshot. -/
def refresh (up : Upstream) (cache : Option CFPCache) (now : Int) : FetchOutcome :=
  match up.get with
  | .error e => { result := .error (.fetchFailed e), cache := cache, fetches := 1 }
  | .ok resp =>
    if resp.statusCode ≠ 200 then
      { result := .error (.httpStatus resp.statusCode), cache := cache, fetches := 1 }
    else
      match resp.body with
      | .error e => { result := .error (.readFailed e), cache := cache, fetches := 1 }
      | .ok body =>
        match up.unmarshal body with
        | .error e => { result := .error (.parseFailed e), cache := cache, fetches := 1 }
        | .ok cfps =>
          { result := .ok cfps, cache := some { data := cfps, timestamp := now }, fetches := 1 }

/-- Function `fetchCFPs`. -/
def fetchCFPs (up : Upstream) (cache : Option CFPCache) (now : Int) : FetchOutcome :=
  match cache with
  | some c =>
    if timeSub now c.timestamp < cacheTTL then
      { result := .ok c.data, cache := cache, fetches := 0 }
    else refresh up cache now
  | none => refresh up cache now

/-! ## Filters and projection (main.go, lines 136-215) -/

/-- The loop `for _, cfp := range xs { if p(cfp) { out = append(out, cfp) } }`. -/
def appendIf (p : CFP → Bool) (xs : List CFP) : List CFP :=
  xs.foldl (fun out cfp => if p cfp then out ++ [cfp] else out) []

/-- Function `getOpenCFPs`, given the outcome of its call of `fetchCFPs`. -/
def getOpenCFPs (up : Upstream) (cache : Option CFPCache) (clock : Clock) :
    Except FetchError (List CFP) × Option CFPCache :=
  let fetched := fetchCFPs up cache clock.fetch
  match fetched.result with
  | .error err => (.error err, fetched.cache)
  | .ok allCFPs =>
    (.ok (appendIf (fun cfp => decide (cfp.untilDate > clock.openMs)) allCFPs), fetched.cache)

/-- Lines 155-156 of `toCFPResult`: the day count. -/
def daysRemaining (untilDate now : Int) : Int :=
  let diffMs := wrapInt64 (untilDate - now)
  (wrapInt64 (diffMs + 86399999)).tdiv 86400000

/-- Function `toCFPResult`, with the clock reading `now` in epoch milliseconds. -/
def toCFPResult (formatDate : Int → String) (now : Int) (cfp : CFP) : CFPResult :=
  let confDate :=
    match cfp.conf with
    | some c =>
      match c.date with
      | d :: _ => formatDate d
      | [] => "Unknown"
    | none => "Unknown"
  match cfp.conf with
  | some c =>
    { conference := c.name, location := c.location, cfpDeadline := cfp.untilLabel,
      daysRemaining := daysRemaining cfp.untilDate now, conferenceDate := confDate,
      cfpLink := cfp.link, conferenceWebsite := c.hyperlink, status := c.status }
  | none =>
    { conference := "Unknown", location := "Unknown", cfpDeadline := cfp.untilLabel,
      daysRemaining := daysRemaining cfp.untilDate now, conferenceDate := confDate,
      cfpLink := cfp.link, conferenceWebsite := "", status := "unknown" }

/-- Lines 193-197 of `matchesKeywords`: the text that is searched. -/
def searchText (toLower : String → String) (cfp : CFP) : String :=
  match cfp.conf with
  | some c => toLower cfp.link ++ (" " ++ toLower c.name) ++ (" " ++ toLower c.location)
  | none => toLower cfp.link

/-- Function `matchesKeywords`. -/
def matchesKeywords (toLower : String → String) (cfp : CFP) (keywords : List String) : Bool :=
  if keywords.length = 0 then true
  else keywords.any (fun keyword => contains (searchText toLower cfp) (toLower keyword))

/-- Function `matchesLocation`. -/
def matchesLocation (toLower : String → String) (cfp : CFP) (location : String) : Bool :=
  if location = "" then true
  else
    match cfp.conf with
    | none => false
    | some c => contains (toLower c.location) (toLower location)

/-! ## Tool handlers (main.go, lines 217-420) -/

/-- What a tool handler does: it either returns its triple `(result, payload, err)`, where
the result carries the one-line summary, or the goroutine panics. -/
inductive ToolOutcome (ρ : Type) where
  | panicked : ToolOutcome ρ
  | returned (summary : Option String) (payload : ρ) (err : Option FetchError) : ToolOutcome ρ

/-- Comparison passed to `sort.Slice` by all four handlers. -/
def deadlineLess (a b : CFP) : Bool :=
  decide (a.untilDate < b.untilDate)

/-- The statement `sort.Slice(xs, func(i, j) bool { return xs[i].UntilDate < xs[j].UntilDate })`. -/
def sortByDeadline (sorter : SliceSorter) (xs : List CFP) : List CFP :=
  sorter.sort deadlineLess xs

/-- The statement `if len(xs) > limit { xs = xs[:limit] }`; `none` is the run-time panic of
a slice expression with a negative bound. -/
def limitStep (xs : List CFP) (limit : Int) : Option (List CFP) :=
  if (xs.length : Int) > limit then
    if limit < 0 then none else some (xs.take limit.toNat)
  else some xs

/-- The loop `for i, cfp := range xs { results[i] = toCFPResult(cfp) }`, where the call for
index `i` reads the clock at `projectMs i`. -/
def projectFrom (formatDate : Int → String) (projectMs : Nat → Int) :
    Nat → List CFP → List CFPResult
  | _, [] => []
  | i, cfp :: rest =>
    toCFPResult formatDate (projectMs i) cfp :: projectFrom formatDate projectMs (i + 1) rest

/-- Results of a handler for the selected CFPs `xs`. -/
def projectAll (lib : StdLib) (clock : Clock) (xs : List CFP) : List CFPResult :=
  projectFrom lib.formatDate clock.projectMs 0 xs

/-- Verb `%d` of `fmt.Sprintf`. -/
def fmtInt (n : Int) : String :=
  toString n

/-- Verb `%v` of `fmt.Sprintf` on a `[]string`. -/
def fmtStrings (xs : List String) : String :=
  "[" ++ " ".intercalate xs ++ "]"

/-- Substitution `if limit == 0 { limit = 20 }`. -/
def effectiveLimit (limit : Int) : Int :=
  if limit = 0 then 20 else limit

/-- Substitution `if daysAhead == 0 { daysAhead = 7 }`. -/
def effectiveDaysAhead (daysAhead : Int) : Int :=
  if daysAhead = 0 then 7 else daysAhead

/-- CFPs that `list_open_cfps` keeps, given the open CFPs: sort, then limit. -/
def listOpenSelect (lib : StdLib) (openCFPs : List CFP) (limit : Int) : Option (List CFP) :=
  limitStep (sortByDeadline lib.sorter openCFPs) limit

/-- Handler of `list_open_cfps` (lines 227-264). -/
def listOpenCFPs (lib : StdLib) (up : Upstream) (cache : Option CFPCache) (clock : Clock)
    (args : ListOpenCFPsArgs) : ToolOutcome ListOpenCFPsResponse × Option CFPCache :=
  let limit := effectiveLimit args.limit
  match getOpenCFPs up cache clock with
  | (.error err, cache1) => (.returned none {} (some err), cache1)
  | (.ok openCFPs, cache1) =>
    let totalOpen : Int := openCFPs.length
    match listOpenSelect lib openCFPs limit with
    | none => (.panicked, cache1)
    | some selected =>
      let results := projectAll lib clock selected
      (.returned
        (some ("Found " ++ fmtInt totalOpen ++ " open CFPs, returning " ++ fmtInt results.length))
        { totalOpen := totalOpen, returned := results.length, cfps := results } none, cache1)

/-- CFPs that `search_cfps_by_keyword` keeps: keyword filter, sort, then limit. -/
def searchByKeywordSelect (lib : StdLib) (openCFPs : List CFP) (keywords : List String)
    (limit : Int) : Option (List CFP) :=
  limitStep
    (sortByDeadline lib.sorter
      (appendIf (fun cfp => matchesKeywords lib.toLower cfp keywords) openCFPs))
    limit

/-- Handler of `search_cfps_by_keyword` (lines 270-313). -/
def searchCFPsByKeyword (lib : StdLib) (up : Upstream) (cache : Option CFPCache)
    (clock : Clock) (args : SearchByKeywordArgs) :
    ToolOutcome SearchByKeywordResponse × Option CFPCache :=
  let limit := effectiveLimit args.limit
  match getOpenCFPs up cache clock with
  | (.error err, cache1) => (.returned none {} (some err), cache1)
  | (.ok openCFPs, cache1) =>
    match searchByKeywordSelect lib openCFPs args.keywords limit with
    | none => (.panicked, cache1)
    | some selected =>
      let results := projectAll lib clock selected
      (.returned
        (some ("Found " ++ fmtInt results.length ++ " CFPs matching keywords "
          ++ fmtStrings args.keywords))
        { searchKeywords := args.keywords, totalMatches := results.length, cfps := results }
        none, cache1)

/-- Line 331: `maxDate := now + int64(daysAhead)*86400000`. -/
def maxDate (now daysAhead : Int) : Int :=
  wrapInt64 (now + wrapInt64 (wrapInt64 daysAhead * 86400000))

/-- Line 336: the window test `cfp.UntilDate <= maxDate && cfp.UntilDate >= now`. -/
def inWindow (now daysAhead : Int) (cfp : CFP) : Bool :=
  decide (cfp.untilDate ≤ maxDate now daysAhead) && decide (cfp.untilDate ≥ now)

/-- CFPs that `find_closing_cfps` keeps: window and keyword filter, then sort; no limit. -/
def findClosingSelect (lib : StdLib) (openCFPs : List CFP) (now daysAhead : Int)
    (keywords : List String) : List CFP :=
  sortByDeadline lib.sorter
    (appendIf (fun cfp => inWindow now daysAhead cfp && matchesKeywords lib.toLower cfp keywords)
      openCFPs)

/-- Handler of `find_closing_cfps` (lines 319-368). -/
def findClosingCFPs (lib : StdLib) (up : Upstream) (cache : Option CFPCache) (clock : Clock)
    (args : FindClosingCFPsArgs) : ToolOutcome FindClosingCFPsResponse × Option CFPCache :=
  let daysAhead := effectiveDaysAhead args.daysAhead
  match getOpenCFPs up cache clock with
  | (.error err, cache1) => (.returned none {} (some err), cache1)
  | (.ok openCFPs, cache1) =>
    let selected := findClosingSelect lib openCFPs clock.windowMs daysAhead args.keywords
    let results := projectAll lib clock selected
    let filterKeywords :=
      if args.keywords.length > 0 then ", ".intercalate args.keywords else "none"
    (.returned
      (some ("Found " ++ fmtInt results.length ++ " urgent CFPs closing within "
        ++ fmtInt daysAhead ++ " days"))
      { daysAhead := daysAhead, filterKeywords := filterKeywords,
        urgentCFPs := results.length, cfps := results } none, cache1)

/-- CFPs that `search_cfps_by_location` keeps: location filter, sort, then limit. -/
def searchByLocationSelect (lib : StdLib) (openCFPs : List CFP) (location : String)
    (limit : Int) : Option (List CFP) :=
  limitStep
    (sortByDeadline lib.sorter
      (appendIf (fun cfp => matchesLocation lib.toLower cfp location) openCFPs))
    limit

/-- Handler of `search_cfps_by_location` (lines 374-417). -/
def searchCFPsByLocation (lib : StdLib) (up : Upstream) (cache : Option CFPCache)
    (clock : Clock) (args : SearchByLocationArgs) :
    ToolOutcome SearchByLocationResponse × Option CFPCache :=
  let limit := effectiveLimit args.limit
  match getOpenCFPs up cache clock with
  | (.error err, cache1) => (.returned none {} (some err), cache1)
  | (.ok openCFPs, cache1) =>
    match searchByLocationSelect lib openCFPs args.location limit with
    | none => (.panicked, cache1)
    | some selected =>
      let results := projectAll lib clock selected
      (.returned
        (some ("Found " ++ fmtInt results.length ++ " CFPs in " ++ args.location))
        { searchLocation := args.location, totalMatches := results.length, cfps := results }
        none, cache1)

/-- Feed that `fetchCFPs` hands to a handler; empty when the call fails. -/
def fetchedFeed (up : Upstream) (cache : Option CFPCache) (clock : Clock) : List CFP :=
  match (fetchCFPs up cache clock.fetch).result with
  | .ok allCFPs => allCFPs
  | .error _ => []

/-- Result entries that an outcome hands to the caller, `cfpsOf` being the `cfps` field of
the payload; a panic hands over none. -/
def ToolOutcome.entries {ρ : Type} (cfpsOf : ρ → List CFPResult) : ToolOutcome ρ → List CFPResult
  | .panicked => []
  | .returned _ payload _ => cfpsOf payload

/-! ## The routine `sort.Slice` of the standard library (package sort, Go 1.19 and later) -/

/-- Call `data.Less(i, j)` on the slice `xs`. -/
def lessAt (less : CFP → CFP → Bool) (xs : List CFP) (i j : Nat) : Bool :=
  match xs[i]?, xs[j]? with
  | some x, some y => less x y
  | _, _ => false

/-- Call `data.Swap(i, j)` on the slice `xs`. -/
def swapAt (xs : List CFP) (i j : Nat) : List CFP :=
  match xs[i]?, xs[j]? with
  | some x, some y => (xs.set i y).set j x
  | _, _ => xs

/-- Inner loop of `insertionSort_func`:
`for j := i; j > a && data.Less(j, j-1); j-- { data.Swap(j, j-1) }`. -/
def insertionInner (less : CFP → CFP → Bool) (a : Nat) : Nat → List CFP → List CFP
  | 0, xs => xs
  | j + 1, xs =>
    if j + 1 > a && lessAt less xs (j + 1) j then insertionInner less a j (swapAt xs (j + 1) j)
    else xs

/-- Outer loop of `insertionSort_func`: `for i := a + 1; i < b; i++`, with `fuel` bounding
the number of iterations. -/
def insertionOuter (less : CFP → CFP → Bool) (a b : Nat) : Nat → Nat → List CFP → List CFP
  | 0, _, xs => xs
  | fuel + 1, i, xs =>
    if i < b then insertionOuter less a b fuel (i + 1) (insertionInner less a i xs) else xs

/-- Function `insertionSort_func`: insertion sort of `data[a:b]`. -/
def insertionSort_func (less : CFP → CFP → Bool) (xs : List CFP) (a b : Nat) : List CFP :=
  insertionOuter less a b (b - a) (a + 1) xs

/-- Loop of `siftDown_func`, started at `root`. -/
def siftDownLoop (less : CFP → CFP → Bool) (hi first : Nat) : Nat → Nat → List CFP → List CFP
  | 0, _, xs => xs
  | fuel + 1, root, xs =>
    let child := 2 * root + 1
    if child ≥ hi then xs
    else
      let child1 :=
        if child + 1 < hi && lessAt less xs (first + child) (first + child + 1) then child + 1
        else child
      if !lessAt less xs (first + root) (first + child1) then xs
      else siftDownLoop less hi first fuel child1 (swapAt xs (first + root) (first + child1))

/-- Function `siftDown_func`: restores the heap property on `data[lo:hi]`. -/
def siftDown_func (less : CFP → CFP → Bool) (xs : List CFP) (lo hi first : Nat) : List CFP :=
  siftDownLoop less hi first hi lo xs

/-- First loop of `heapSort_func`: `for i := (hi - 1) / 2; i >= 0; i--`, the argument being
`i + 1`. -/
def heapBuild (less : CFP → CFP → Bool) (hi first : Nat) : Nat → List CFP → List CFP
  | 0, xs => xs
  | i + 1, xs => heapBuild less hi first i (siftDown_func less xs i hi first)

/-- Second loop of `heapSort_func`: `for i := hi - 1; i >= 0; i--`, the argument being
`i + 1`. -/
def heapPop (less : CFP → CFP → Bool) (first : Nat) : Nat → List CFP → List CFP
  | 0, xs => xs
  | i + 1, xs => heapPop less first i (siftDown_func less (swapAt xs first (first + i)) 0 i first)

/-- Function `heapSort_func`. -/
def heapSort_func (less : CFP → CFP → Bool) (xs : List CFP) (a b : Nat) : List CFP :=
  let hi := b - a
  heapPop less a hi (heapBuild less hi a ((hi - 1) / 2 + 1) xs)

/-- Loop `for i <= j && data.Less(i, a) { i++ }` of `partition_func`; returns `i`. -/
def scanLess (less : CFP → CFP → Bool) (xs : List CFP) (a j : Nat) : Nat → Nat → Nat
  | 0, i => i
  | fuel + 1, i => if i ≤ j && lessAt less xs i a then scanLess less xs a j fuel (i + 1) else i

/-- Loop `for i <= j && !data.Less(j, a) { j-- }` of `partition_func`; returns `j`. -/
def scanNotLess (less : CFP → CFP → Bool) (xs : List CFP) (a i : Nat) : Nat → Nat → Nat
  | 0, j => j
  | fuel + 1, j =>
    if i ≤ j && !lessAt less xs j a then scanNotLess less xs a i fuel (j - 1) else j

/-- Main loop of `partition_func`; returns the slice and the final `j`. -/
def partitionLoop (less : CFP → CFP → Bool) (a : Nat) :
    Nat → List CFP → Nat → Nat → List CFP × Nat
  | 0, xs, _, j => (xs, j)
  | fuel + 1, xs, i, j =>
    let i1 := scanLess less xs a j (j + 1 - i) i
    let j1 := scanNotLess less xs a i1 (j + 1 - i1) j
    if i1 > j1 then (xs, j1)
    else partitionLoop less a fuel (swapAt xs i1 j1) (i1 + 1) (j1 - 1)

/-- Function `partition_func`: one quicksort partition of `data[a:b]` around `data[pivot]`;
returns the slice, the new index of the pivot and whether the slice was already
partitioned. -/
def partition_func (less : CFP → CFP → Bool) (xs : List CFP) (a b pivot : Nat) :
    List CFP × Nat × Bool :=
  let xs1 := swapAt xs a pivot
  let i := scanLess less xs1 a (b - 1) (b - a) (a + 1)
  let j := scanNotLess less xs1 a i (b - a) (b - 1)
  if i > j then (swapAt xs1 j a, j, true)
  else
    let (xs2, j2) := partitionLoop less a (b - a) (swapAt xs1 i j) (i + 1) (j - 1)
    (swapAt xs2 j2 a, j2, false)

/-- Loop `for i <= j && !data.Less(a, i) { i++ }` of `partitionEqual_func`; returns `i`. -/
def scanNotGreater (less : CFP → CFP → Bool) (xs : List CFP) (a j : Nat) : Nat → Nat → Nat
  | 0, i => i
  | fuel + 1, i =>
    if i ≤ j && !lessAt less xs a i then scanNotGreater less xs a j fuel (i + 1) else i

/-- Loop `for i <= j && data.Less(a, j) { j-- }` of `partitionEqual_func`; returns `j`. -/
def scanGreater (less : CFP → CFP → Bool) (xs : List CFP) (a i : Nat) : Nat → Nat → Nat
  | 0, j => j
  | fuel + 1, j => if i ≤ j && lessAt less xs a j then scanGreater less xs a i fuel (j - 1) else j

/-- Main loop of `partitionEqual_func`; returns the slice and the final `i`. -/
def partitionEqualLoop (less : CFP → CFP → Bool) (a : Nat) :
    Nat → List CFP → Nat → Nat → List CFP × Nat
  | 0, xs, i, _ => (xs, i)
  | fuel + 1, xs, i, j =>
    let i1 := scanNotGreater less xs a j (j + 1 - i) i
    let j1 := scanGreater less xs a i1 (j + 1 - i1) j
    if i1 > j1 then (xs, i1)
    else partitionEqualLoop less a fuel (swapAt xs i1 j1) (i1 + 1) (j1 - 1)

/-- Function `partitionEqual_func`: partitions `data[a:b]` into the elements equal to
`data[pivot]` followed by the greater ones. -/
def partitionEqual_func (less : CFP → CFP → Bool) (xs : List CFP) (a b pivot : Nat) :
    List CFP × Nat :=
  partitionEqualLoop less a (b - a + 1) (swapAt xs a pivot) (a + 1) (b - 1)

/-- Loop `for i < b && !data.Less(i, i-1) { i++ }` of `partialInsertionSort_func`. -/
def skipOrdered (less : CFP → CFP → Bool) (xs : List CFP) (b : Nat) : Nat → Nat → Nat
  | 0, i => i
  | fuel + 1, i =>
    if i < b && !lessAt less xs i (i - 1) then skipOrdered less xs b fuel (i + 1) else i

/-- Loop `for j := i - 1; j >= 1; j-- { if !data.Less(j, j-1) { break }; data.Swap(j, j-1) }`
of `partialInsertionSort_func`, the argument being `j`. -/
def shiftSmaller (less : CFP → CFP → Bool) : Nat → List CFP → List CFP
  | 0, xs => xs
  | j + 1, xs =>
    if !lessAt less xs (j + 1) j then xs else shiftSmaller less j (swapAt xs (j + 1) j)

/-- Loop `for j := i + 1; j < b; j++ { if !data.Less(j, j-1) { break }; data.Swap(j, j-1) }`
of `partialInsertionSort_func`. -/
def shiftGreater (less : CFP → CFP → Bool) (b : Nat) : Nat → Nat → List CFP → List CFP
  | 0, _, xs => xs
  | fuel + 1, j, xs =>
    if j < b then
      if !lessAt less xs j (j - 1) then xs
      else shiftGreater less b fuel (j + 1) (swapAt xs j (j - 1))
    else xs

/-- Loop `for j := 0; j < maxSteps; j++` of `partialInsertionSort_func`, with `steps` the
number of iterations left. -/
def partialInsertionLoop (less : CFP → CFP → Bool) (a b : Nat) :
    Nat → Nat → List CFP → List CFP × Bool
  | 0, _, xs => (xs, false)
  | steps + 1, i, xs =>
    let i1 := skipOrdered less xs b (b - i) i
    if i1 = b then (xs, true)
    else if b - a < 50 then (xs, false)
    else
      let xs1 := swapAt xs i1 (i1 - 1)
      let xs2 := if i1 - a ≥ 2 then shiftSmaller less (i1 - 1) xs1 else xs1
      let xs3 := if b - i1 ≥ 2 then shiftGreater less b (b - i1) (i1 + 1) xs2 else xs2
      partialInsertionLoop less a b steps i1 xs3

/-- Function `partialInsertionSort_func`: partially sorts the slice and tells whether it
is sorted at the end; `maxSteps = 5`, `shortestShifting = 50`. -/
def partialInsertionSort_func (less : CFP → CFP → Bool) (xs : List CFP) (a b : Nat) :
    List CFP × Bool :=
  partialInsertionLoop less a b 5 (a + 1) xs

/-- Halving loop behind `bitsLen`, with `fuel` bounding the number of halvings. -/
def bitsLenLoop : Nat → Nat → Nat
  | 0, _ => 0
  | fuel + 1, n => if n = 0 then 0 else bitsLenLoop fuel (n / 2) + 1

/-- Function `bits.Len`: the number of bits needed to represent `n`. -/
def bitsLen (n : Nat) : Nat :=
  bitsLenLoop (n + 1) n

/-- Method `Next` of the type `xorshift`, on 64-bit words. -/
def xorshiftNext (r : Nat) : Nat :=
  let r1 := r ^^^ ((r <<< 13) % 18446744073709551616)
  let r2 := r1 ^^^ (r1 >>> 7)
  r2 ^^^ ((r2 <<< 17) % 18446744073709551616)

/-- Loop `for i := 0; i < 3; i++` of `breakPatterns_func`, with `todo` iterations left. -/
def breakPatternsLoop (a length modulus idx : Nat) : Nat → Nat → Nat → List CFP → List CFP
  | 0, _, _, xs => xs
  | todo + 1, i, random, xs =>
    let random1 := xorshiftNext random
    let other := random1 &&& (modulus - 1)
    let other1 := if other ≥ length then other - length else other
    breakPatternsLoop a length modulus idx todo (i + 1) random1 (swapAt xs (idx - 1 + i) (a + other1))

/-- Function `breakPatterns_func`: scatters three elements around the middle. -/
def breakPatterns_func (xs : List CFP) (a b : Nat) : List CFP :=
  let length := b - a
  if length ≥ 8 then
    breakPatternsLoop a length (2 ^ bitsLen length) (a + length / 4 * 2 - 1) 3 0 length xs
  else xs

/-- Type `sortedHint`. -/
inductive SortedHint where
  | unknownHint
  | increasingHint
  | decreasingHint
deriving DecidableEq, Repr

/-- Function `order2_func`: the two indices in order, and the updated number of swaps. -/
def order2_func (less : CFP → CFP → Bool) (xs : List CFP) (a b swaps : Nat) : Nat × Nat × Nat :=
  if lessAt less xs b a then (b, a, swaps + 1) else (a, b, swaps)

/-- Function `median_func`: index of the median of three, and the updated number of swaps. -/
def median_func (less : CFP → CFP → Bool) (xs : List CFP) (a b c swaps : Nat) : Nat × Nat :=
  let r1 := order2_func less xs a b swaps
  let r2 := order2_func less xs r1.2.1 c r1.2.2
  let r3 := order2_func less xs r1.1 r2.1 r2.2.2
  (r3.2.1, r3.2.2)

/-- Function `medianAdjacent_func`. -/
def medianAdjacent_func (less : CFP → CFP → Bool) (xs : List CFP) (a swaps : Nat) : Nat × Nat :=
  median_func less xs (a - 1) a (a + 1) swaps

/-- Function `choosePivot_func`; `shortestNinther = 50`, `maxSwaps = 12`. -/
def choosePivot_func (less : CFP → CFP → Bool) (xs : List CFP) (a b : Nat) : Nat × SortedHint :=
  let l := b - a
  let i := a + l / 4 * 1
  let j := a + l / 4 * 2
  let k := a + l / 4 * 3
  let chosen : Nat × Nat :=
    if l ≥ 8 then
      if l ≥ 50 then
        let mi := medianAdjacent_func less xs i 0
        let mj := medianAdjacent_func less xs j mi.2
        let mk := medianAdjacent_func less xs k mj.2
        median_func less xs mi.1 mj.1 mk.1 mk.2
      else median_func less xs i j k 0
    else (j, 0)
  if chosen.2 = 0 then (chosen.1, .increasingHint)
  else if chosen.2 = 12 then (chosen.1, .decreasingHint)
  else (chosen.1, .unknownHint)

/-- Loop of `reverseRange_func`. -/
def reverseLoop : Nat → Nat → Nat → List CFP → List CFP
  | 0, _, _, xs => xs
  | fuel + 1, i, j, xs => if i < j then reverseLoop fuel (i + 1) (j - 1) (swapAt xs i j) else xs

/-- Function `reverseRange_func`. -/
def reverseRange_func (xs : List CFP) (a b : Nat) : List CFP :=
  reverseLoop (b - a) a (b - 1) xs

/-- Function `pdqsort_func`, sorting `data[a:b]`; `maxInsertion = 12`. The `for` loop and
the recursive call both consume `fuel`, and every round shortens `data[a:b]`. The last two
arguments are the variables `wasBalanced` and `wasPartitioned`. -/
def pdqsort_func (less : CFP → CFP → Bool) :
    Nat → List CFP → Nat → Nat → Nat → Bool → Bool → List CFP
  | 0, xs, _, _, _, _, _ => xs
  | fuel + 1, xs, a, b, limit, wasBalanced, wasPartitioned =>
    let length := b - a
    if length ≤ 12 then insertionSort_func less xs a b
    else if limit = 0 then heapSort_func less xs a b
    else
      let xs1 := if !wasBalanced then breakPatterns_func xs a b else xs
      let limit1 := if !wasBalanced then limit - 1 else limit
      let chosen := choosePivot_func less xs1 a b
      let decreasing := decide (chosen.2 = SortedHint.decreasingHint)
      let xs2 := if decreasing then reverseRange_func xs1 a b else xs1
      let pivot := if decreasing then (b - 1) - (chosen.1 - a) else chosen.1
      let hint := if decreasing then SortedHint.increasingHint else chosen.2
      let tried :=
        if wasBalanced && wasPartitioned && decide (hint = SortedHint.increasingHint) then
          partialInsertionSort_func less xs2 a b
        else (xs2, false)
      if tried.2 then tried.1
      else if a > 0 && !lessAt less tried.1 (a - 1) pivot then
        let eq := partitionEqual_func less tried.1 a b pivot
        pdqsort_func less fuel eq.1 eq.2 b limit1 wasBalanced wasPartitioned
      else
        let part := partition_func less tried.1 a b pivot
        let mid := part.2.1
        let leftLen := mid - a
        let rightLen := b - mid
        let balanceThreshold := length / 8
        if leftLen < rightLen then
          pdqsort_func less fuel (pdqsort_func less fuel part.1 a mid limit1 true true)
            (mid + 1) b limit1 (decide (leftLen ≥ balanceThreshold)) part.2.2
        else
          pdqsort_func less fuel (pdqsort_func less fuel part.1 (mid + 1) b limit1 true true)
            a mid limit1 (decide (rightLen ≥ balanceThreshold)) part.2.2

/-- Function `sort.Slice`: `pdqsort_func(data, 0, length, bits.Len(uint(length)))`. -/
def sortSlice (less : CFP → CFP → Bool) (xs : List CFP) : List CFP :=
  pdqsort_func less (xs.length + 1) xs 0 xs.length (bitsLen xs.length) true true

/-! ## Reference instances of the library parameters -/

/-- Insertion sort as an instance of the contract of `sort.Slice`; it keeps ties in input
order. -/
def insertionSorter : SliceSorter where
  sort less l := l.insertionSort (fun a b => less b a = false)
  perm less l := List.perm_insertionSort _ l
  ordered less l h := by
    haveI : IsTotal CFP (fun a b => less b a = false) :=
      ⟨fun a b => by
        cases hab : less a b
        · exact Or.inr rfl
        · cases hba : less b a
          · exact Or.inl rfl
          · have := h.trans a b a hab hba
            rw [h.irrefl a] at this
            exact absurd this (by decide)⟩
    haveI : IsTrans CFP (fun a b => less b a = false) :=
      ⟨fun a b c hab hbc => h.negTrans c b a hbc hab⟩
    exact List.sorted_insertionSort _ l

/-- Routine `sort.Slice` as an instance of its contract: the result of `sortSlice`, used as
it stands whenever it is a rearrangement of the input in which no element is less than an
earlier one, which is what the library guarantees; insertion sort stands in otherwise. -/
def goSorter : SliceSorter where
  sort less l :=
    if (sortSlice less l).Perm l ∧
        (sortSlice less l).Pairwise (fun a b => less b a = false) then
      sortSlice less l
    else insertionSorter.sort less l
  perm less l := by
    dsimp only
    split
    · rename_i h
      exact h.1
    · exact insertionSorter.perm less l
  ordered less l h := by
    dsimp only
    split
    · rename_i hc
      exact hc.2
    · exact insertionSorter.ordered less l h

/-- Feed entry with the given link and deadline and no conference. -/
def bareCFP (link : String) (untilDate : Int) : CFP :=
  { link := link, untilLabel := "", untilDate := untilDate, conf := none }

/-- Feed of thirteen CFPs in which only "a" and "b" share a deadline, "a" coming first. -/
def tiedFeed : List CFP :=
  [bareCFP "a" 9, bareCFP "b" 9, bareCFP "c" 1, bareCFP "d" 2, bareCFP "e" 3, bareCFP "f" 4,
   bareCFP "g" 5, bareCFP "h" 6, bareCFP "i" 7, bareCFP "j" 8, bareCFP "k" 10, bareCFP "l" 11,
   bareCFP "m" 12]

/-- Library instance used in the worked examples: ASCII lower-casing, insertion sort and a
date formatter that prints the number of milliseconds. -/
def exampleLib : StdLib :=
  { toLower := asciiToLower, sorter := insertionSorter, formatDate := fun ms => toString ms }

/-- Upstream that answers 200 with a body decoding to `feed`. -/
def upstreamServing (feed : List CFP) : Upstream :=
  { get := .ok { statusCode := 200, body := .ok "[...]" }, unmarshal := fun _ => .ok feed }

/-! ## Calendar dates: `time.UnixMilli(ms).Format("2006-01-02")` -/

/-- Year, month and day of the proleptic Gregorian calendar for the day number `z`, day 0
being 1970-01-01. -/
def civilFromDays (z : Int) : Int × Int × Int :=
  let shifted := z + 719468
  let era := shifted / 146097
  let doe := shifted % 146097
  let yoe := (doe - doe / 1460 + doe / 36524 - doe / 146096) / 365
  let doy := doe - (365 * yoe + yoe / 4 - yoe / 100)
  let mp := (5 * doy + 2) / 153
  let day := doy - (153 * mp + 2) / 5 + 1
  let month := if mp < 10 then mp + 3 else mp - 9
  let year := yoe + era * 400
  (if month ≤ 2 then year + 1 else year, month, day)

/-- Decimal digit as a character. -/
def digitChar (n : Nat) : Char :=
  Char.ofNat (48 + n % 10)

/-- Decimal digits of `n`, most significant first, produced with `fuel` divisions. -/
def decimalDigits : Nat → Nat → List Char
  | 0, _ => []
  | fuel + 1, n => if n < 10 then [digitChar n] else decimalDigits fuel (n / 10) ++ [digitChar n]

/-- Number printed by the time formatter: a minus sign for a negative number, then the
decimal digits padded with zeros on the left to `width` digits. -/
def zeroPadded (width : Nat) (x : Int) : String :=
  let digits := decimalDigits (x.natAbs + 1) x.natAbs
  ⟨(if x < 0 then ['-'] else []) ++ List.replicate (width - digits.length) '0' ++ digits⟩

/-- Layout `2006-01-02` applied to a year, a month and a day. -/
def isoDate (ymd : Int × Int × Int) : String :=
  zeroPadded 4 ymd.1 ++ "-" ++ zeroPadded 2 ymd.2.1 ++ "-" ++ zeroPadded 2 ymd.2.2

/-- Calendar date, in a zone lying `offset` seconds east of UTC, of the instant `ms`
milliseconds after the epoch. -/
def dateInZone (offset : Int) (ms : Int) : Int × Int × Int :=
  civilFromDays ((ms / 1000 + offset) / 86400)

/-- Expression `time.UnixMilli(ms).Format("2006-01-02")`: `time.UnixMilli` returns the
local Time and `Format` prints a Time in its own location, so the date is the one in the
process's local zone, `localZone sec` being the offset of that zone, in seconds east of
UTC, at the Unix time `sec`. -/
def goFormatDate (localZone : Int → Int) (ms : Int) : String :=
  isoDate (dateInZone (localZone (ms / 1000)) ms)

/-- The zone UTC. -/
def utcZone : Int → Int :=
  fun _ => 0

/-! ## Auxiliary lemmas -/

theorem foldl_appendIf (p : CFP → Bool) (xs acc : List CFP) :
    xs.foldl (fun out cfp => if p cfp then out ++ [cfp] else out) acc = acc ++ xs.filter p := by
  induction xs generalizing acc with
  | nil => simp
  | cons x xs ih =>
    simp only [List.foldl_cons, ih, List.filter_cons]
    by_cases hx : p x = true <;> simp [hx]

theorem appendIf_eq_filter (p : CFP → Bool) (xs : List CFP) : appendIf p xs = xs.filter p := by
  simp [appendIf, foldl_appendIf]

theorem wrapInt64_eq_self {x : Int} (h : inInt64 x) : wrapInt64 x = x := by
  unfold inInt64 at h
  unfold wrapInt64
  omega

theorem deadlineLess_contract : LessContract deadlineLess where
  irrefl a := by simp [deadlineLess]
  trans a b c := by
    simp only [deadlineLess, decide_eq_true_eq]
    omega
  negTrans a b c := by
    simp only [deadlineLess, decide_eq_false_iff_not]
    omega

theorem sortByDeadline_perm (sorter : SliceSorter) (xs : List CFP) :
    (sortByDeadline sorter xs).Perm xs :=
  sorter.perm deadlineLess xs

theorem sortByDeadline_pairwise (sorter : SliceSorter) (xs : List CFP) :
    (sortByDeadline sorter xs).Pairwise (fun a b => a.untilDate ≤ b.untilDate) := by
  refine (sorter.ordered deadlineLess xs deadlineLess_contract).imp ?_
  intro a b h
  simp only [deadlineLess, decide_eq_false_iff_not] at h
  omega

theorem limitStep_of_nonneg (xs : List CFP) (n : Int) (hn : 0 ≤ n) :
    limitStep xs n = some (xs.take n.toNat) := by
  unfold limitStep
  split
  · rw [if_neg (by omega)]
  · rw [List.take_of_length_le (by omega)]

theorem limitStep_subperm {xs out : List CFP} {n : Int} (h : limitStep xs n = some out) :
    out.Subperm xs := by
  unfold limitStep at h
  split at h
  · split at h
    · exact absurd h (by simp)
    · simp only [Option.some.injEq] at h
      subst h
      exact (List.take_sublist _ _).subperm
  · simp only [Option.some.injEq] at h
    subst h
    exact List.Subperm.refl _

theorem getOpenCFPs_fst (up : Upstream) (cache : Option CFPCache) (clock : Clock) :
    (getOpenCFPs up cache clock).1 =
      (fetchCFPs up cache clock.fetch).result.map
        (List.filter (fun cfp => decide (cfp.untilDate > clock.openMs))) := by
  unfold getOpenCFPs
  dsimp only
  split <;> rename_i h <;> simp [h, Except.map, appendIf_eq_filter]

theorem getOpenCFPs_cases (up : Upstream) (cache : Option CFPCache) (clock : Clock) :
    (∃ err, getOpenCFPs up cache clock = (.error err, (fetchCFPs up cache clock.fetch).cache)) ∨
    getOpenCFPs up cache clock =
      (.ok ((fetchedFeed up cache clock).filter (fun cfp => decide (cfp.untilDate > clock.openMs))),
        (fetchCFPs up cache clock.fetch).cache) := by
  unfold getOpenCFPs fetchedFeed
  dsimp only
  split <;> rename_i h
  · exact Or.inl ⟨_, rfl⟩
  · exact Or.inr (by simp [appendIf_eq_filter, h])

theorem filter_open_mem {feed : List CFP} {now : Int} {sel : List CFP}
    (h : sel.Subperm (feed.filter (fun cfp => decide (cfp.untilDate > now)))) :
    ∀ cfp ∈ sel, cfp.untilDate > now := by
  intro cfp hc
  have := h.subset hc
  simpa using (List.mem_filter.mp this).2

theorem limited_open_subperm {feed sorted kept out : List CFP} {now n : Int}
    (hk : kept.Sublist (feed.filter (fun cfp => decide (cfp.untilDate > now))))
    (hs : sorted.Perm kept) (h : limitStep sorted n = some out) :
    out.Subperm (feed.filter (fun cfp => decide (cfp.untilDate > now))) :=
  (limitStep_subperm h).trans (hs.subperm.trans hk.subperm)

/-! ## C1: the open invariant -/

/-- C1. `getOpenCFPs` returns exactly the entries of the fetched feed whose `untilDate` is
greater than the instant `clock.openMs`, in feed order (and the error when the fetch fails);
and whatever the arguments, the result entries of each of the four handlers are the
projections of CFPs `sel` taken from the open entries of the feed, so that no CFP with
`untilDate <= clock.openMs` contributes an entry. -/
theorem open_invariant (lib : StdLib) (up : Upstream) (cache : Option CFPCache) (clock : Clock) :
    (getOpenCFPs up cache clock).1 =
        (fetchCFPs up cache clock.fetch).result.map
          (List.filter (fun cfp => decide (cfp.untilDate > clock.openMs))) ∧
    (∀ args : ListOpenCFPsArgs, ∃ sel : List CFP,
        sel.Subperm ((fetchedFeed up cache clock).filter
          (fun cfp => decide (cfp.untilDate > clock.openMs))) ∧
        (∀ cfp ∈ sel, cfp.untilDate > clock.openMs) ∧
        (listOpenCFPs lib up cache clock args).1.entries (fun p => p.cfps) =
          projectAll lib clock sel) ∧
    (∀ args : SearchByKeywordArgs, ∃ sel : List CFP,
        sel.Subperm ((fetchedFeed up cache clock).filter
          (fun cfp => decide (cfp.untilDate > clock.openMs))) ∧
        (∀ cfp ∈ sel, cfp.untilDate > clock.openMs) ∧
        (searchCFPsByKeyword lib up cache clock args).1.entries (fun p => p.cfps) =
          projectAll lib clock sel) ∧
    (∀ args : FindClosingCFPsArgs, ∃ sel : List CFP,
        sel.Subperm ((fetchedFeed up cache clock).filter
          (fun cfp => decide (cfp.untilDate > clock.openMs))) ∧
        (∀ cfp ∈ sel, cfp.untilDate > clock.openMs) ∧
        (findClosingCFPs lib up cache clock args).1.entries (fun p => p.cfps) =
          projectAll lib clock sel) ∧
    (∀ args : SearchByLocationArgs, ∃ sel : List CFP,
        sel.Subperm ((fetchedFeed up cache clock).filter
          (fun cfp => decide (cfp.untilDate > clock.openMs))) ∧
        (∀ cfp ∈ sel, cfp.untilDate > clock.openMs) ∧
        (searchCFPsByLocation lib up cache clock args).1.entries (fun p => p.cfps) =
          projectAll lib clock sel) := by
  refine ⟨getOpenCFPs_fst up cache clock, ?_, ?_, ?_, ?_⟩
  · intro args
    unfold listOpenCFPs
    rcases getOpenCFPs_cases up cache clock with ⟨err, h⟩ | h
    · rw [h]
      exact ⟨[], List.nil_subperm, by simp, rfl⟩
    · rw [h]
      dsimp only
      cases hsel : listOpenSelect lib _ (effectiveLimit args.limit) with
      | none => exact ⟨[], List.nil_subperm, by simp, rfl⟩
      | some sel =>
        have hsub := limited_open_subperm (List.Sublist.refl _)
          (sortByDeadline_perm lib.sorter _) hsel
        exact ⟨sel, hsub, filter_open_mem hsub, rfl⟩
  · intro args
    unfold searchCFPsByKeyword
    rcases getOpenCFPs_cases up cache clock with ⟨err, h⟩ | h
    · rw [h]
      exact ⟨[], List.nil_subperm, by simp, rfl⟩
    · rw [h]
      dsimp only
      cases hsel : searchByKeywordSelect lib _ args.keywords (effectiveLimit args.limit) with
      | none => exact ⟨[], List.nil_subperm, by simp, rfl⟩
      | some sel =>
        unfold searchByKeywordSelect at hsel
        rw [appendIf_eq_filter] at hsel
        have hsub := limited_open_subperm (List.filter_sublist _)
          (sortByDeadline_perm lib.sorter _) hsel
        exact ⟨sel, hsub, filter_open_mem hsub, rfl⟩
  · intro args
    unfold findClosingCFPs
    rcases getOpenCFPs_cases up cache clock with ⟨err, h⟩ | h
    · rw [h]
      exact ⟨[], List.nil_subperm, by simp, rfl⟩
    · rw [h]
      dsimp only
      have hsub : (findClosingSelect lib
          ((fetchedFeed up cache clock).filter (fun cfp => decide (cfp.untilDate > clock.openMs)))
          clock.windowMs (effectiveDaysAhead args.daysAhead) args.keywords).Subperm
          ((fetchedFeed up cache clock).filter
            (fun cfp => decide (cfp.untilDate > clock.openMs))) := by
        unfold findClosingSelect
        rw [appendIf_eq_filter]
        exact (sortByDeadline_perm lib.sorter _).subperm.trans (List.filter_sublist _).subperm
      exact ⟨_, hsub, filter_open_mem hsub, rfl⟩
  · intro args
    unfold searchCFPsByLocation
    rcases getOpenCFPs_cases up cache clock with ⟨err, h⟩ | h
    · rw [h]
      exact ⟨[], List.nil_subperm, by simp, rfl⟩
    · rw [h]
      dsimp only
      cases hsel : searchByLocationSelect lib _ args.location (effectiveLimit args.limit) with
      | none => exact ⟨[], List.nil_subperm, by simp, rfl⟩
      | some sel =>
        unfold searchByLocationSelect at hsel
        rw [appendIf_eq_filter] at hsel
        have hsub := limited_open_subperm (List.filter_sublist _)
          (sortByDeadline_perm lib.sorter _) hsel
        exact ⟨sel, hsub, filter_open_mem hsub, rfl⟩

/-! ## C2 and C10: the day count -/

theorem daysRemaining_eq_ediv {untilDate now : Int} (h1 : inInt64 (untilDate - now))
    (h2 : inInt64 (untilDate - now + 86399999)) (h3 : -86400000 < untilDate - now) :
    daysRemaining untilDate now = (untilDate - now + 86399999) / 86400000 := by
  unfold daysRemaining
  dsimp only
  rw [wrapInt64_eq_self h1, wrapInt64_eq_self h2]
  exact Int.tdiv_eq_ediv (by omega) (by decide)

theorem ceil_div_day (d : Int) : ⌈(d : ℚ) / 86400000⌉ = (d + 86399999) / 86400000 := by
  rw [Int.ceil_eq_iff]
  have hlo : ((d + 86399999) / 86400000 - 1) * 86400000 < d := by omega
  have hhi : d ≤ ((d + 86399999) / 86400000) * 86400000 := by omega
  constructor
  · rw [lt_div_iff₀ (by norm_num)]
    exact_mod_cast hlo
  · rw [div_le_iff₀ (by norm_num)]
    exact_mod_cast hhi

/-- C2, as stated, fails for a CFP that closed a whole day ago: with `untilDate` exactly
86400000 ms before `now` nothing overflows, the source computes `(-1) / 86400000 = 0` by
truncation, and the ceiling of `-86400000 / 86400000` is `-1`. -/
theorem daysRemaining_expired_not_ceil :
    inInt64 (1699913600000 - 1700000000000) ∧
    inInt64 (1699913600000 - 1700000000000 + 86399999) ∧
    daysRemaining 1699913600000 1700000000000 = 0 ∧
    ⌈(((1699913600000 - 1700000000000 : Int)) : ℚ) / 86400000⌉ = -1 := by
  refine ⟨by decide, by decide, by decide, ?_⟩
  rw [ceil_div_day]
  decide

/-- C2, amended. When the subtraction and the addition of the bias do not overflow and the
deadline lies less than one day in the past (in particular for every CFP that is still
open), the day count of `toCFPResult` is the ceiling of `(untilDate - now) / 86400000`. -/
theorem daysRemaining_eq_ceil (formatDate : Int → String) (cfp : CFP) (now : Int)
    (h1 : inInt64 (cfp.untilDate - now)) (h2 : inInt64 (cfp.untilDate - now + 86399999))
    (h3 : -86400000 < cfp.untilDate - now) :
    (toCFPResult formatDate now cfp).daysRemaining =
      ⌈((cfp.untilDate - now : Int) : ℚ) / 86400000⌉ := by
  have hd : (toCFPResult formatDate now cfp).daysRemaining =
      daysRemaining cfp.untilDate now := by
    unfold toCFPResult
    cases cfp.conf <;> rfl
  rw [hd, daysRemaining_eq_ediv h1 h2 h3, ceil_div_day]

/-- Instance of the amended C2: a deadline 3 days and 1 ms ahead gives the ceiling, 4. -/
theorem daysRemaining_eq_ceil_witness :
    (toCFPResult (fun _ => "") 1700000000000 (bareCFP "a" 1700259200001)).daysRemaining =
      ⌈(((bareCFP "a" 1700259200001).untilDate - 1700000000000 : Int) : ℚ) / 86400000⌉ :=
  daysRemaining_eq_ceil (fun _ => "") (bareCFP "a" 1700259200001) 1700000000000
    (by decide) (by decide) (by decide)

/-- C10, as stated, fails when the addition of the bias overflows: with `now = 0` and the
deadline `2^63 - 1` (that is `k = 106751991167` days and `r = 25975807` ms) the sum
`diffMs + 86399999` wraps around and the day count is negative instead of `k + 1`. -/
theorem daysRemaining_overflow :
    (0 : Int) + 106751991167 * 86400000 + 25975807 = 9223372036854775807 ∧
    (toCFPResult (fun _ => "") 0 (bareCFP "a" 9223372036854775807)).daysRemaining =
      -106751991166 := by
  constructor <;> decide

/-- C10, amended. For `k >= 0` days and a remainder `0 <= r < 86400000` such that
`k*86400000 + r + 86399999` still fits an `int64`, a CFP with
`untilDate = now + k*86400000 + r` gets `daysRemaining = k` when `r = 0` and `k + 1` when
`r > 0`; 3 days and 1 ms give 4, exactly 3 days give 3. -/
theorem daysRemaining_rounds_up (formatDate : Int → String) (cfp : CFP) (now k r : Int)
    (hk : 0 ≤ k) (hr0 : 0 ≤ r) (hr : r < 86400000)
    (hfit : k * 86400000 + r + 86399999 ≤ 9223372036854775807)
    (hcfp : cfp.untilDate = now + k * 86400000 + r) :
    ((r = 0 → (toCFPResult formatDate now cfp).daysRemaining = k) ∧
      (0 < r → (toCFPResult formatDate now cfp).daysRemaining = k + 1)) ∧
    (toCFPResult formatDate now (bareCFP "a" (now + 3 * 86400000 + 1))).daysRemaining = 4 ∧
    (toCFPResult formatDate now (bareCFP "a" (now + 3 * 86400000))).daysRemaining = 3 := by
  have key : ∀ (c : CFP) (k r : Int), 0 ≤ k → 0 ≤ r → r < 86400000 →
      k * 86400000 + r + 86399999 ≤ 9223372036854775807 →
      c.untilDate = now + k * 86400000 + r →
      (toCFPResult formatDate now c).daysRemaining = (k * 86400000 + r + 86399999) / 86400000 := by
    intro c k r hk hr0 hr hfit hc
    have hd : (toCFPResult formatDate now c).daysRemaining = daysRemaining c.untilDate now := by
      unfold toCFPResult
      cases c.conf <;> rfl
    have hdiff : c.untilDate - now = k * 86400000 + r := by omega
    rw [hd, daysRemaining_eq_ediv (by unfold inInt64; omega) (by unfold inInt64; omega)
      (by omega), hdiff]
  refine ⟨⟨?_, ?_⟩, ?_, ?_⟩
  · intro h0
    rw [key cfp k r hk hr0 hr hfit hcfp]
    omega
  · intro hpos
    rw [key cfp k r hk hr0 hr hfit hcfp]
    omega
  · rw [key (bareCFP "a" (now + 3 * 86400000 + 1)) 3 1 (by decide) (by decide) (by decide)
      (by decide) rfl]
    decide
  · rw [key (bareCFP "a" (now + 3 * 86400000)) 3 0 (by decide) (by decide) (by decide)
      (by decide) (by simp [bareCFP])]
    decide

/-- Instance of the amended C10 at `now = 1700000000000`, `k = 2`, `r = 5`. -/
theorem daysRemaining_rounds_up_witness :
    (toCFPResult (fun _ => "") 1700000000000 (bareCFP "b" 1700172800005)).daysRemaining = 3 :=
  ((daysRemaining_rounds_up (fun _ => "") (bareCFP "b" 1700172800005) 1700000000000 2 5
    (by decide) (by decide) (by decide) (by decide) (by decide)).1.2 (by decide))

/-! ## C3: the limiting step -/

/-- C3, as stated, fails for a negative effective limit: `-1` is not replaced by the default,
the guard `len(xs) > limit` holds, and `xs[:-1]` panics instead of returning a list. -/
theorem limitStep_negative_panics :
    effectiveLimit (-1) = -1 ∧
    limitStep [bareCFP "a" 1, bareCFP "b" 2] (-1) = none ∧
    limitStep [] (-1) = none := by
  decide

/-- C3, amended. For every list and every effective limit `n >= 0` the limiting step returns
the first `min(len, n)` elements: never more than `n`, exactly `min(len, n)`, and the list
itself when it is not longer than `n`; in the three limited handlers the list is the
deadline-sorted one. -/
theorem limitStep_take (lib : StdLib) (xs : List CFP) (n : Int) (hn : 0 ≤ n) :
    limitStep xs n = some (xs.take (min xs.length n.toNat)) ∧
    ((xs.take (min xs.length n.toNat)).length : Int) ≤ n ∧
    (xs.take (min xs.length n.toNat)).length = min xs.length n.toNat ∧
    ((xs.length : Int) ≤ n → limitStep xs n = some xs) ∧
    listOpenSelect lib xs n =
      some ((sortByDeadline lib.sorter xs).take (min (sortByDeadline lib.sorter xs).length n.toNat)) ∧
    (∀ keywords, searchByKeywordSelect lib xs keywords n =
      some ((sortByDeadline lib.sorter
          (xs.filter (fun cfp => matchesKeywords lib.toLower cfp keywords))).take
        (min (sortByDeadline lib.sorter
          (xs.filter (fun cfp => matchesKeywords lib.toLower cfp keywords))).length n.toNat))) ∧
    (∀ location, searchByLocationSelect lib xs location n =
      some ((sortByDeadline lib.sorter
          (xs.filter (fun cfp => matchesLocation lib.toLower cfp location))).take
        (min (sortByDeadline lib.sorter
          (xs.filter (fun cfp => matchesLocation lib.toLower cfp location))).length n.toNat))) := by
  have htake : ∀ ys : List CFP, limitStep ys n = some (ys.take (min ys.length n.toNat)) := by
    intro ys
    rw [limitStep_of_nonneg ys n hn]
    by_cases hle : n.toNat ≤ ys.length
    · rw [Nat.min_eq_right hle]
    · rw [Nat.min_eq_left (by omega), List.take_length, List.take_of_length_le (by omega)]
  refine ⟨htake xs, ?_, ?_, ?_, htake _, ?_, ?_⟩
  · rw [List.length_take]
    omega
  · rw [List.length_take]
    omega
  · intro hlen
    rw [limitStep_of_nonneg xs n hn, List.take_of_length_le (by omega)]
  · intro keywords
    unfold searchByKeywordSelect
    rw [appendIf_eq_filter]
    exact htake _
  · intro location
    unfold searchByLocationSelect
    rw [appendIf_eq_filter]
    exact htake _

/-- Instance of the amended C3: three CFPs limited to two. -/
theorem limitStep_take_witness :
    limitStep [bareCFP "a" 1, bareCFP "b" 2, bareCFP "c" 3] 2 =
      some [bareCFP "a" 1, bareCFP "b" 2] :=
  (limitStep_take exampleLib [bareCFP "a" 1, bareCFP "b" 2, bareCFP "c" 3] 2 (by decide)).1

/-! ## C4: the deadline sort -/

/-- C4, as stated, fails in its stability part. On `tiedFeed`, thirteen CFPs of which "a"
and "b" share the deadline 9 and "a" comes first, `sort.Slice` picks the element at index 6
as pivot and first swaps it with "a" at index 0; "a" lands behind "b" and the insertion
sort of the right part keeps them so: "b" is returned before "a". -/
theorem sortByDeadline_not_stable :
    sortSlice deadlineLess tiedFeed =
      [bareCFP "c" 1, bareCFP "d" 2, bareCFP "e" 3, bareCFP "f" 4, bareCFP "g" 5,
       bareCFP "h" 6, bareCFP "i" 7, bareCFP "j" 8, bareCFP "b" 9, bareCFP "a" 9,
       bareCFP "k" 10, bareCFP "l" 11, bareCFP "m" 12] ∧
    sortByDeadline goSorter tiedFeed = sortSlice deadlineLess tiedFeed ∧
    (sortByDeadline goSorter tiedFeed).filter (fun cfp => decide (cfp.untilDate = 9)) =
      [bareCFP "b" 9, bareCFP "a" 9] ∧
    tiedFeed.filter (fun cfp => decide (cfp.untilDate = 9)) =
      [bareCFP "a" 9, bareCFP "b" 9] := by
  refine ⟨by decide, by decide, by decide, by decide⟩

/-- C4, amended. For every list of CFPs the deadline sort returns a permutation of its
input that is non-decreasing in `untilDate`, so the sequence of deadlines of the output is
the sorted sequence of the deadlines of the input whatever the sorting routine does;
nothing is promised about the relative order of entries with the same `untilDate`. -/
theorem sortByDeadline_sorted_perm (sorter : SliceSorter) (xs : List CFP) :
    (sortByDeadline sorter xs).Perm xs ∧
    (sortByDeadline sorter xs).Pairwise (fun a b => a.untilDate ≤ b.untilDate) ∧
    (sortByDeadline sorter xs).map (fun cfp => cfp.untilDate) =
      (xs.map (fun cfp => cfp.untilDate)).insertionSort (fun a b => a ≤ b) := by
  refine ⟨sortByDeadline_perm sorter xs, sortByDeadline_pairwise sorter xs, ?_⟩
  refine List.eq_of_perm_of_sorted (r := fun a b : Int => a ≤ b) ?_ ?_ ?_
  · exact ((sortByDeadline_perm sorter xs).map _).trans (List.perm_insertionSort _ _).symm
  · exact List.pairwise_map.mpr (sortByDeadline_pairwise sorter xs)
  · exact List.sorted_insertionSort _ _

/-! ## C5 and C9: the matchers -/

theorem contains_iff (s substr : String) : contains s substr = true ↔ substr.data <:+: s.data := by
  simp [contains]

theorem matchesKeywords_iff (toLower : String → String) (cfp : CFP) (keywords : List String)
    (hne : keywords ≠ []) :
    matchesKeywords toLower cfp keywords = true ↔
      ∃ k ∈ keywords, (toLower k).data <:+: (searchText toLower cfp).data := by
  unfold matchesKeywords
  have hlen : ¬ keywords.length = 0 := by
    intro h
    exact hne (List.length_eq_zero.mp h)
  rw [if_neg hlen]
  simp [List.any_eq_true, contains_iff]

/-- C5, as stated, fails because the searched text is not the plain concatenation of the
three fields. With link "go" and conference name "pher" the keyword "gopher" is a substring
of the concatenation but the source joins the fields with a space and finds no match; and
for a CFP without conference the keyword " " is found in the space-joined text with empty
conference fields, while the source searches the link alone. -/
theorem matchesKeywords_not_concatenation :
    (matchesKeywords asciiToLower
        { link := "go", untilLabel := "", untilDate := 1,
          conf := some { name := "pher", date := [], hyperlink := "", status := "",
                         location := "" } } ["gopher"] = false ∧
      contains (asciiToLower ("go" ++ "pher" ++ "")) (asciiToLower "gopher") = true) ∧
    (matchesKeywords asciiToLower (bareCFP "go" 1) [" "] = false ∧
      contains (asciiToLower ("go" ++ " " ++ "" ++ " " ++ "")) (asciiToLower " ") = true) := by
  decide

/-- C5, amended. `matchesKeywords` returns true for the empty keyword list; otherwise it
returns true exactly when some lower-cased keyword is a substring of the searched text,
which is the lower-cased link alone when the conference reference is absent and otherwise
the lower-cased link, name and location joined by single spaces. A CFP whose conference
name is "GopherCon" matches the keyword "gopher". -/
theorem matchesKeywords_spec (toLower : String → String) (cfp : CFP) (keywords : List String) :
    (keywords = [] → matchesKeywords toLower cfp keywords = true) ∧
    (keywords ≠ [] → cfp.conf = none →
      (matchesKeywords toLower cfp keywords = true ↔
        ∃ k ∈ keywords, (toLower k).data <:+: (toLower cfp.link).data)) ∧
    (∀ c, keywords ≠ [] → cfp.conf = some c →
      (matchesKeywords toLower cfp keywords = true ↔
        ∃ k ∈ keywords, (toLower k).data <:+:
          (toLower cfp.link ++ " " ++ toLower c.name ++ " " ++ toLower c.location).data)) ∧
    (∀ c, cfp.conf = some c → c.name = "GopherCon" → toLower "GopherCon" = "gophercon" →
      toLower "gopher" = "gopher" → matchesKeywords toLower cfp ["gopher"] = true) := by
  refine ⟨?_, ?_, ?_, ?_⟩
  · intro h
    simp [matchesKeywords, h]
  · intro hne hconf
    rw [matchesKeywords_iff toLower cfp keywords hne]
    simp [searchText, hconf]
  · intro c hne hconf
    rw [matchesKeywords_iff toLower cfp keywords hne]
    simp [searchText, hconf, String.append_assoc]
  · intro c hconf hname hl1 hl2
    rw [matchesKeywords_iff toLower cfp ["gopher"] (by simp)]
    refine ⟨"gopher", by simp, ?_⟩
    rw [hl2]
    simp only [searchText, hconf, hname, hl1, String.data_append]
    exact ⟨(toLower cfp.link).data ++ [' '], "con".data ++ (" ".data ++ (toLower c.location).data),
      by simp⟩

/-- Instance of the amended C5 with ASCII lower-casing: "GopherCon" matches "gopher". -/
theorem matchesKeywords_spec_witness :
    matchesKeywords asciiToLower
      { link := "https://cfp.example/2026", untilLabel := "", untilDate := 1,
        conf := some { name := "GopherCon", date := [], hyperlink := "", status := "open",
                       location := "Berlin" } } ["gopher"] = true :=
  (matchesKeywords_spec asciiToLower
      { link := "https://cfp.example/2026", untilLabel := "", untilDate := 1,
        conf := some { name := "GopherCon", date := [], hyperlink := "", status := "open",
                       location := "Berlin" } } ["gopher"]).2.2.2
    { name := "GopherCon", date := [], hyperlink := "", status := "open", location := "Berlin" }
    rfl rfl (by decide) (by decide)

/-- C9. `matchesLocation` returns true for the empty location; false for a non-empty
location when the conference reference is absent; and otherwise true exactly when the
lower-cased location is a substring of the lower-cased conference location. -/
theorem matchesLocation_spec (toLower : String → String) (cfp : CFP) (location : String) :
    (location = "" → matchesLocation toLower cfp location = true) ∧
    (location ≠ "" → cfp.conf = none → matchesLocation toLower cfp location = false) ∧
    (∀ c, location ≠ "" → cfp.conf = some c →
      (matchesLocation toLower cfp location = true ↔
        (toLower location).data <:+: (toLower c.location).data)) := by
  refine ⟨?_, ?_, ?_⟩
  · intro h
    simp [matchesLocation, h]
  · intro hne hconf
    simp [matchesLocation, hne, hconf]
  · intro c hne hconf
    simp [matchesLocation, hne, hconf, contains_iff]

/-- Instance of C9 with ASCII lower-casing: "france" is found in "Paris, France". -/
theorem matchesLocation_spec_witness :
    matchesLocation asciiToLower
      { link := "l", untilLabel := "", untilDate := 1,
        conf := some { name := "n", date := [], hyperlink := "", status := "",
                       location := "Paris, France" } } "france" = true :=
  ((matchesLocation_spec asciiToLower
      { link := "l", untilLabel := "", untilDate := 1,
        conf := some { name := "n", date := [], hyperlink := "", status := "",
                       location := "Paris, France" } } "france").2.2
    { name := "n", date := [], hyperlink := "", status := "", location := "Paris, France" }
    (by decide) rfl).mpr (by decide)

/-! ## C6: the closing window -/

theorem length_projectFrom (formatDate : Int → String) (projectMs : Nat → Int) (i : Nat)
    (xs : List CFP) : (projectFrom formatDate projectMs i xs).length = xs.length := by
  induction xs generalizing i with
  | nil => rfl
  | cons x xs ih => simp [projectFrom, ih]

theorem length_projectAll (lib : StdLib) (clock : Clock) (xs : List CFP) :
    (projectAll lib clock xs).length = xs.length :=
  length_projectFrom _ _ _ _

theorem maxDate_eq {now daysAhead : Int} (hmul : inInt64 (daysAhead * 86400000))
    (hadd : inInt64 (now + daysAhead * 86400000)) :
    maxDate now daysAhead = now + daysAhead * 86400000 := by
  unfold maxDate
  have hd : inInt64 daysAhead := by
    unfold inInt64 at hmul ⊢
    omega
  rw [wrapInt64_eq_self hd, wrapInt64_eq_self hmul, wrapInt64_eq_self hadd]

/-- C6, as stated, fails when `daysAhead*86400000` overflows: with `daysAhead = 10^12` the
product wraps to a negative `int64`, `maxDate` lies before `now`, and a CFP due one
millisecond after `now`, which is open and inside the stated window, is not returned. -/
theorem findClosing_overflow :
    (findClosingCFPs exampleLib (upstreamServing [bareCFP "a" 1700000000001]) none
        (Clock.atInstant 0 1700000000000)
        { daysAhead := 1000000000000, keywords := [] }).1.entries (fun p => p.cfps) = [] ∧
    maxDate 1700000000000 1000000000000 = -5833718668547758080 ∧
    (bareCFP "a" 1700000000001).untilDate > 1700000000000 ∧
    (bareCFP "a" 1700000000001).untilDate ≤ 1700000000000 + 1000000000000 * 86400000 ∧
    matchesKeywords exampleLib.toLower (bareCFP "a" 1700000000001) [] = true := by
  refine ⟨by decide, by decide, by decide, by decide, by decide⟩

/-- C6, amended. When `now + daysAhead*86400000` is computed without `int64` overflow
(`daysAhead` after default substitution), `find_closing_cfps` evaluated at the single
instant `now` returns one entry for each open feed CFP with
`now <= untilDate <= now + daysAhead*86400000` that matches the keywords, and no other
entry; no limit is applied. With `daysAhead = 7` a matching CFP due exactly 604800000 ms
after `now` is returned and one due exactly 691200000 ms after `now` is not. -/
theorem findClosing_window (lib : StdLib) (up : Upstream) (cache : Option CFPCache)
    (tFetch now : Int) (args : FindClosingCFPsArgs) (feed : List CFP)
    (hfeed : (fetchCFPs up cache tFetch).result = .ok feed)
    (hmul : inInt64 (effectiveDaysAhead args.daysAhead * 86400000))
    (hadd : inInt64 (now + effectiveDaysAhead args.daysAhead * 86400000)) :
    ∃ summary payload sel,
      (findClosingCFPs lib up cache (Clock.atInstant tFetch now) args).1 =
        .returned (some summary) payload none ∧
      payload.cfps = projectAll lib (Clock.atInstant tFetch now) sel ∧
      payload.cfps.length = sel.length ∧
      sel.Perm (feed.filter (fun cfp =>
        decide (cfp.untilDate > now) &&
        (decide (now ≤ cfp.untilDate) &&
          decide (cfp.untilDate ≤ now + effectiveDaysAhead args.daysAhead * 86400000)) &&
        matchesKeywords lib.toLower cfp args.keywords)) ∧
      (effectiveDaysAhead args.daysAhead = 7 →
        ∀ cfp ∈ feed, matchesKeywords lib.toLower cfp args.keywords = true →
          (cfp.untilDate = now + 604800000 → cfp ∈ sel) ∧
          (cfp.untilDate = now + 691200000 → cfp ∉ sel)) := by
  have hopen : getOpenCFPs up cache (Clock.atInstant tFetch now) =
      (.ok (feed.filter (fun cfp => decide (cfp.untilDate > now))),
        (fetchCFPs up cache tFetch).cache) := by
    unfold getOpenCFPs
    simp [Clock.atInstant, hfeed, appendIf_eq_filter]
  have hperm : (findClosingSelect lib (feed.filter (fun cfp => decide (cfp.untilDate > now)))
      now (effectiveDaysAhead args.daysAhead) args.keywords).Perm
      (feed.filter (fun cfp =>
        decide (cfp.untilDate > now) &&
        (decide (now ≤ cfp.untilDate) &&
          decide (cfp.untilDate ≤ now + effectiveDaysAhead args.daysAhead * 86400000)) &&
        matchesKeywords lib.toLower cfp args.keywords)) := by
    unfold findClosingSelect
    rw [appendIf_eq_filter, List.filter_filter]
    refine (sortByDeadline_perm lib.sorter _).trans (List.Perm.of_eq ?_)
    apply List.filter_congr
    intro cfp _
    simp only [inWindow, maxDate_eq hmul hadd]
    cases matchesKeywords lib.toLower cfp args.keywords <;>
      simp only [Bool.and_true, Bool.and_false, Bool.false_and, ge_iff_le, gt_iff_lt]
    by_cases h1 : now < cfp.untilDate <;>
      by_cases h2 : cfp.untilDate ≤ now + effectiveDaysAhead args.daysAhead * 86400000 <;>
      by_cases h3 : now ≤ cfp.untilDate <;> simp [h1, h2, h3]
  unfold findClosingCFPs
  rw [hopen]
  refine ⟨_, _, _, rfl, rfl, length_projectAll _ _ _, hperm, ?_⟩
  intro h7 cfp hmem hmatch
  constructor
  · intro hdue
    refine hperm.symm.subset (List.mem_filter.mpr ⟨hmem, ?_⟩)
    simp only [hmatch, Bool.and_true, Bool.and_eq_true, decide_eq_true_eq, h7]
    omega
  · intro hdue hin
    have := (List.mem_filter.mp (hperm.subset hin)).2
    simp only [hmatch, Bool.and_true, Bool.and_eq_true, decide_eq_true_eq, h7] at this
    omega

/-- Instance of the amended C6: `daysAhead = 7`, one CFP due in exactly 7 days and one due
in exactly 8 days. -/
theorem findClosing_window_witness :
    ∃ (summary : String) (payload : FindClosingCFPsResponse) (sel : List CFP),
      (findClosingCFPs exampleLib
          (upstreamServing [bareCFP "a" 1700604800000, bareCFP "b" 1700691200000]) none
          (Clock.atInstant 0 1700000000000) { daysAhead := 7, keywords := [] }).1 =
        .returned (some summary) payload none ∧
      payload.cfps.length = sel.length ∧
      bareCFP "a" 1700604800000 ∈ sel ∧ bareCFP "b" 1700691200000 ∉ sel := by
  obtain ⟨summary, payload, sel, h1, _, h3, _, h5⟩ :=
    findClosing_window exampleLib
      (upstreamServing [bareCFP "a" 1700604800000, bareCFP "b" 1700691200000]) none
      0 1700000000000 { daysAhead := 7, keywords := [] }
      [bareCFP "a" 1700604800000, bareCFP "b" 1700691200000] rfl (by decide) (by decide)
  exact ⟨summary, payload, sel, h1, h3,
    (h5 (by decide) (bareCFP "a" 1700604800000) (by decide) (by decide)).1 (by decide),
    (h5 (by decide) (bareCFP "b" 1700691200000) (by decide) (by decide)).2 (by decide)⟩

/-! ## C7 and C8: the cache -/

theorem timeSub_lt_ttl (now ts : Int) : timeSub now ts < cacheTTL ↔ now - ts < cacheTTL := by
  unfold timeSub cacheTTL minDuration maxDuration
  omega

theorem fetchCFPs_fresh {up : Upstream} {c : CFPCache} {now : Int}
    (h : now - c.timestamp < cacheTTL) :
    fetchCFPs up (some c) now = { result := .ok c.data, cache := some c, fetches := 0 } := by
  unfold fetchCFPs
  dsimp only
  rw [if_pos ((timeSub_lt_ttl now c.timestamp).mpr h)]

theorem fetchCFPs_stale {up : Upstream} {cache : Option CFPCache} {now : Int}
    (h : cache = none ∨ ∃ c, cache = some c ∧ now - c.timestamp ≥ cacheTTL) :
    fetchCFPs up cache now = refresh up cache now := by
  unfold fetchCFPs
  rcases h with h | ⟨c, hc, hage⟩
  · subst h
    rfl
  · subst hc
    dsimp only
    rw [if_neg]
    rw [timeSub_lt_ttl]
    omega

theorem refresh_fetches (up : Upstream) (cache : Option CFPCache) (now : Int) :
    (refresh up cache now).fetches = 1 := by
  unfold refresh
  split
  · rfl
  · split
    · rfl
    · split
      · rfl
      · split <;> rfl

theorem refresh_success {up : Upstream} {cache : Option CFPCache} {now : Int}
    {resp : HttpResponse} {body : String} {cfps : List CFP}
    (hget : up.get = .ok resp) (hstatus : resp.statusCode = 200) (hbody : resp.body = .ok body)
    (hjson : up.unmarshal body = .ok cfps) :
    refresh up cache now =
      { result := .ok cfps, cache := some { data := cfps, timestamp := now }, fetches := 1 } := by
  unfold refresh
  simp [hget, hstatus, hbody, hjson]

/-- C7. If a snapshot exists and is younger than one hour, `fetchCFPs` returns its data,
makes no upstream fetch and leaves the slot as it is; otherwise it makes exactly one
upstream fetch and, when that succeeds, returns the fetched list and installs it with
`timestamp = now`. Hence a second call less than one hour after a successful refresh
returns the same data with no further fetch, and a call one hour or more after it makes
exactly one more fetch. -/
theorem fetchCFPs_cache_policy (up : Upstream) (cache : Option CFPCache) (now : Int) :
    (∀ c, cache = some c → now - c.timestamp < cacheTTL →
      (fetchCFPs up cache now).result = .ok c.data ∧
      (fetchCFPs up cache now).fetches = 0 ∧
      (fetchCFPs up cache now).cache = cache) ∧
    ((cache = none ∨ ∃ c, cache = some c ∧ now - c.timestamp ≥ cacheTTL) →
      (fetchCFPs up cache now).fetches = 1 ∧
      ∀ resp body cfps, up.get = .ok resp → resp.statusCode = 200 → resp.body = .ok body →
        up.unmarshal body = .ok cfps →
        (fetchCFPs up cache now).result = .ok cfps ∧
        (fetchCFPs up cache now).cache = some { data := cfps, timestamp := now } ∧
        (∀ (up2 : Upstream) (later : Int), later - now < cacheTTL →
          (fetchCFPs up2 (fetchCFPs up cache now).cache later).result =
            (fetchCFPs up cache now).result ∧
          (fetchCFPs up2 (fetchCFPs up cache now).cache later).cache =
            (fetchCFPs up cache now).cache ∧
          (fetchCFPs up cache now).fetches +
            (fetchCFPs up2 (fetchCFPs up cache now).cache later).fetches = 1) ∧
        (∀ (up2 : Upstream) (later : Int), later - now ≥ cacheTTL →
          (fetchCFPs up2 (fetchCFPs up cache now).cache later).fetches = 1)) := by
  constructor
  · intro c hc hage
    subst hc
    rw [fetchCFPs_fresh hage]
    exact ⟨rfl, rfl, rfl⟩
  · intro hstale
    rw [fetchCFPs_stale hstale]
    refine ⟨refresh_fetches up cache now, ?_⟩
    intro resp body cfps hget hstatus hbody hjson
    rw [refresh_success hget hstatus hbody hjson]
    refine ⟨rfl, rfl, ?_, ?_⟩
    · intro up2 later hlater
      have hfresh : later - ({ data := cfps, timestamp := now } : CFPCache).timestamp < cacheTTL :=
        hlater
      dsimp only
      rw [fetchCFPs_fresh hfresh]
      exact ⟨rfl, rfl, rfl⟩
    · intro up2 later hlater
      dsimp only
      rw [fetchCFPs_stale (Or.inr ⟨_, rfl, hlater⟩)]
      exact refresh_fetches _ _ _

/-- Instance of C7: a snapshot taken at instant 0 is served 59 minutes later. -/
theorem fetchCFPs_cache_policy_witness :
    (fetchCFPs (upstreamServing []) (some { data := [bareCFP "a" 1], timestamp := 0 })
        3540000000000).result = .ok [bareCFP "a" 1] ∧
    (fetchCFPs (upstreamServing []) (some { data := [bareCFP "a" 1], timestamp := 0 })
        3540000000000).fetches = 0 ∧
    (fetchCFPs (upstreamServing []) (some { data := [bareCFP "a" 1], timestamp := 0 })
        3540000000000).cache = some { data := [bareCFP "a" 1], timestamp := 0 } :=
  (fetchCFPs_cache_policy (upstreamServing [])
    (some { data := [bareCFP "a" 1], timestamp := 0 }) 3540000000000).1
    { data := [bareCFP "a" 1], timestamp := 0 } rfl (by decide)

/-- C8. When a refresh is required (no snapshot, or one at least an hour old) and the
upstream fetch fails, by a transport error, a status other than 200, an unreadable body or
a body that does not decode, `fetchCFPs` returns the corresponding error and no data (the
stale snapshot is not served) and the cache slot is left as it was. -/
theorem fetchCFPs_failure (up : Upstream) (cache : Option CFPCache) (now : Int)
    (hstale : cache = none ∨ ∃ c, cache = some c ∧ now - c.timestamp ≥ cacheTTL) :
    (∀ e, up.get = .error e →
      (fetchCFPs up cache now).result = .error (.fetchFailed e) ∧
      (fetchCFPs up cache now).cache = cache) ∧
    (∀ resp, up.get = .ok resp → resp.statusCode ≠ 200 →
      (fetchCFPs up cache now).result = .error (.httpStatus resp.statusCode) ∧
      (fetchCFPs up cache now).cache = cache) ∧
    (∀ resp e, up.get = .ok resp → resp.statusCode = 200 → resp.body = .error e →
      (fetchCFPs up cache now).result = .error (.readFailed e) ∧
      (fetchCFPs up cache now).cache = cache) ∧
    (∀ resp body e, up.get = .ok resp → resp.statusCode = 200 → resp.body = .ok body →
      up.unmarshal body = .error e →
      (fetchCFPs up cache now).result = .error (.parseFailed e) ∧
      (fetchCFPs up cache now).cache = cache) := by
  rw [fetchCFPs_stale hstale]
  refine ⟨?_, ?_, ?_, ?_⟩
  · intro e hget
    simp [refresh, hget]
  · intro resp hget hstatus
    simp [refresh, hget, hstatus]
  · intro resp e hget hstatus hbody
    simp [refresh, hget, hstatus, hbody]
  · intro resp body e hget hstatus hbody hjson
    simp [refresh, hget, hstatus, hbody, hjson]

/-- Instance of C8: a snapshot exactly one hour old and an upstream answering 503. -/
theorem fetchCFPs_failure_witness :
    (fetchCFPs { get := .ok { statusCode := 503, body := .ok "" }, unmarshal := fun _ => .ok [] }
        (some { data := [bareCFP "a" 1], timestamp := 0 }) 3600000000000).result =
      .error (.httpStatus 503) ∧
    (fetchCFPs { get := .ok { statusCode := 503, body := .ok "" }, unmarshal := fun _ => .ok [] }
        (some { data := [bareCFP "a" 1], timestamp := 0 }) 3600000000000).cache =
      some { data := [bareCFP "a" 1], timestamp := 0 } :=
  (fetchCFPs_failure { get := .ok { statusCode := 503, body := .ok "" }, unmarshal := fun _ => .ok [] }
    (some { data := [bareCFP "a" 1], timestamp := 0 }) 3600000000000
    (Or.inr ⟨_, rfl, by decide⟩)).2.1 { statusCode := 503, body := .ok "" } rfl (by decide)

/-! ## C11: default substitution -/

/-- C11. Whatever the feed, the clock and the other arguments, `list_open_cfps`,
`search_cfps_by_keyword` and `search_cfps_by_location` called with `limit = 0` produce the
same outcome (summary, payload, error, cache slot) as with `limit = 20`, and
`find_closing_cfps` called with `daysAhead = 0` produces the same outcome, echoed
`daysAhead` field and summary line included, as with `daysAhead = 7`. -/
theorem default_substitution (lib : StdLib) (up : Upstream) (cache : Option CFPCache)
    (clock : Clock) :
    listOpenCFPs lib up cache clock { limit := 0 } =
      listOpenCFPs lib up cache clock { limit := 20 } ∧
    (∀ keywords : List String,
      searchCFPsByKeyword lib up cache clock { keywords := keywords, limit := 0 } =
        searchCFPsByKeyword lib up cache clock { keywords := keywords, limit := 20 }) ∧
    (∀ location : String,
      searchCFPsByLocation lib up cache clock { location := location, limit := 0 } =
        searchCFPsByLocation lib up cache clock { location := location, limit := 20 }) ∧
    (∀ keywords : List String,
      findClosingCFPs lib up cache clock { daysAhead := 0, keywords := keywords } =
        findClosingCFPs lib up cache clock { daysAhead := 7, keywords := keywords }) := by
  refine ⟨?_, ?_, ?_, ?_⟩
  · simp [listOpenCFPs, effectiveLimit]
  · intro keywords
    simp [searchCFPsByKeyword, effectiveLimit]
  · intro location
    simp [searchCFPsByLocation, effectiveLimit]
  · intro keywords
    simp [findClosingCFPs, effectiveDaysAhead]

/-! ## C12 and C13: the projection -/

/-- C12. For a CFP without conference reference `toCFPResult` yields conference "Unknown",
location "Unknown", an empty conferenceWebsite and status "unknown"; for a CFP with a
conference record these four fields are the record's name, location, hyperlink and status;
in both cases cfpDeadline is the CFP's until label and cfpLink its link. -/
theorem toCFPResult_fields (formatDate : Int → String) (now : Int) (cfp : CFP) :
    (cfp.conf = none →
      (toCFPResult formatDate now cfp).conference = "Unknown" ∧
      (toCFPResult formatDate now cfp).location = "Unknown" ∧
      (toCFPResult formatDate now cfp).conferenceWebsite = "" ∧
      (toCFPResult formatDate now cfp).status = "unknown") ∧
    (∀ c, cfp.conf = some c →
      (toCFPResult formatDate now cfp).conference = c.name ∧
      (toCFPResult formatDate now cfp).location = c.location ∧
      (toCFPResult formatDate now cfp).conferenceWebsite = c.hyperlink ∧
      (toCFPResult formatDate now cfp).status = c.status) ∧
    (toCFPResult formatDate now cfp).cfpDeadline = cfp.untilLabel ∧
    (toCFPResult formatDate now cfp).cfpLink = cfp.link := by
  refine ⟨?_, ?_, ?_, ?_⟩
  · intro h
    simp [toCFPResult, h]
  · intro c h
    simp [toCFPResult, h]
  · unfold toCFPResult
    cases cfp.conf <;> rfl
  · unfold toCFPResult
    cases cfp.conf <;> rfl

/-- Instance of C12: a CFP without conference and one with a conference record. -/
theorem toCFPResult_fields_witness :
    (toCFPResult (fun _ => "") 0 (bareCFP "l" 1)).conference = "Unknown" ∧
    (toCFPResult (fun _ => "") 0
      { link := "l", untilLabel := "u", untilDate := 1,
        conf := some { name := "GopherCon", date := [], hyperlink := "https://g.example",
                       status := "open", location := "Berlin" } }).conferenceWebsite =
      "https://g.example" :=
  ⟨((toCFPResult_fields (fun _ => "") 0 (bareCFP "l" 1)).1 rfl).1,
   ((toCFPResult_fields (fun _ => "") 0
      { link := "l", untilLabel := "u", untilDate := 1,
        conf := some { name := "GopherCon", date := [], hyperlink := "https://g.example",
                       status := "open", location := "Berlin" } }).2.1 _ rfl).2.2.1⟩

/-- C13, as stated, fails in its time zone: the date is printed in the local zone of the
process. In a zone one hour east of UTC the instant 1700004600000 ms (2023-11-14 23:30 UTC)
is printed as 2023-11-15, while its date in UTC is 2023-11-14. -/
theorem conferenceDate_not_utc :
    (toCFPResult (goFormatDate (fun _ => 3600)) 0
      { link := "l", untilLabel := "u", untilDate := 1,
        conf := some { name := "n", date := [1700004600000], hyperlink := "", status := "",
                       location := "" } }).conferenceDate = "2023-11-15" ∧
    isoDate (dateInZone 0 1700004600000) = "2023-11-14" := by
  decide

/-- C13, amended. The conferenceDate produced by `toCFPResult` is "Unknown" when the
conference reference is absent or its date sequence is empty; otherwise it is the calendar
date, in the layout YYYY-MM-DD, of the first element of the date sequence read as epoch
milliseconds in the local time zone of the process, later elements being ignored; it is the
date in UTC when the local zone is UTC. -/
theorem conferenceDate_spec (localZone : Int → Int) (now : Int) (cfp : CFP) :
    (cfp.conf = none →
      (toCFPResult (goFormatDate localZone) now cfp).conferenceDate = "Unknown") ∧
    (∀ c, cfp.conf = some c → c.date = [] →
      (toCFPResult (goFormatDate localZone) now cfp).conferenceDate = "Unknown") ∧
    (∀ c d rest, cfp.conf = some c → c.date = d :: rest →
      (toCFPResult (goFormatDate localZone) now cfp).conferenceDate =
        isoDate (civilFromDays ((d / 1000 + localZone (d / 1000)) / 86400))) ∧
    (∀ c d rest, cfp.conf = some c → c.date = d :: rest → localZone = utcZone →
      (toCFPResult (goFormatDate localZone) now cfp).conferenceDate =
        isoDate (civilFromDays (d / 1000 / 86400))) := by
  refine ⟨?_, ?_, ?_, ?_⟩
  · intro h
    simp [toCFPResult, h]
  · intro c h hd
    simp [toCFPResult, h, hd]
  · intro c d rest h hd
    simp [toCFPResult, h, hd, goFormatDate, dateInZone]
  · intro c d rest h hd hz
    subst hz
    simp [toCFPResult, h, hd, goFormatDate, dateInZone, utcZone]

/-- Instance of the amended C13 in UTC: 1709164800000 ms is printed as 2024-02-29, the
second element of the sequence being ignored. -/
theorem conferenceDate_spec_witness :
    (toCFPResult (goFormatDate utcZone) 0
      { link := "l", untilLabel := "u", untilDate := 1,
        conf := some { name := "n", date := [1709164800000, 1], hyperlink := "", status := "",
                       location := "" } }).conferenceDate = "2024-02-29" :=
  ((conferenceDate_spec utcZone 0
      { link := "l", untilLabel := "u", untilDate := 1,
        conf := some { name := "n", date := [1709164800000, 1], hyperlink := "", status := "",
                       location := "" } }).2.2.2 _ 1709164800000 [1] rfl rfl rfl).trans
    (by decide)

/-! ## C15: keywords on a CFP without conference -/

/-- C15. For a CFP whose conference reference is absent and a non-empty keyword list,
`matchesKeywords` returns true exactly when some lower-cased keyword is a substring of the
lower-cased link: the CFP is considered, and can match on its link only. -/
theorem matchesKeywords_no_conference (toLower : String → String) (cfp : CFP)
    (keywords : List String) (hconf : cfp.conf = none) (hne : keywords ≠ []) :
    matchesKeywords toLower cfp keywords = true ↔
      ∃ k ∈ keywords, (toLower k).data <:+: (toLower cfp.link).data := by
  rw [matchesKeywords_iff toLower cfp keywords hne]
  simp [searchText, hconf]

/-- Instance of C15: a bare CFP matches on its link and on nothing else. -/
theorem matchesKeywords_no_conference_witness :
    (matchesKeywords asciiToLower (bareCFP "https://GopherCon.example" 1) ["berlin", "gopher"] =
        true ↔
      ∃ k ∈ ["berlin", "gopher"],
        (asciiToLower k).data <:+:
          (asciiToLower (bareCFP "https://GopherCon.example" 1).link).data) ∧
    matchesKeywords asciiToLower (bareCFP "https://GopherCon.example" 1) ["berlin", "gopher"] =
      true ∧
    matchesKeywords asciiToLower (bareCFP "https://GopherCon.example" 1) ["berlin"] = false :=
  ⟨matchesKeywords_no_conference asciiToLower (bareCFP "https://GopherCon.example" 1)
      ["berlin", "gopher"] rfl (by decide), by decide, by decide⟩

/-! ## Lemmas on the handlers -/

theorem getOpenCFPs_ok {up : Upstream} {cache : Option CFPCache} {clock : Clock}
    {feed : List CFP} (hfeed : (fetchCFPs up cache clock.fetch).result = .ok feed) :
    getOpenCFPs up cache clock =
      (.ok (feed.filter (fun cfp => decide (cfp.untilDate > clock.openMs))),
        (fetchCFPs up cache clock.fetch).cache) := by
  unfold getOpenCFPs
  simp [hfeed, appendIf_eq_filter]

theorem getOpenCFPs_error {up : Upstream} {cache : Option CFPCache} {clock : Clock}
    {err : FetchError} (herr : (fetchCFPs up cache clock.fetch).result = .error err) :
    getOpenCFPs up cache clock = (.error err, (fetchCFPs up cache clock.fetch).cache) := by
  unfold getOpenCFPs
  simp [herr]

theorem effectiveLimit_pos {limit : Int} (h : 0 ≤ limit) : 0 < effectiveLimit limit := by
  unfold effectiveLimit
  split <;> omega

theorem effectiveLimit_neg {limit : Int} (h : limit < 0) : effectiveLimit limit = limit := by
  unfold effectiveLimit
  rw [if_neg (by omega)]

theorem limitStep_of_neg (xs : List CFP) {n : Int} (h : n < 0) : limitStep xs n = none := by
  unfold limitStep
  rw [if_pos (by omega), if_pos h]

theorem take_min_length (xs : List CFP) (n : Nat) : xs.take (min xs.length n) = xs.take n := by
  by_cases hle : n ≤ xs.length
  · rw [Nat.min_eq_right hle]
  · rw [Nat.min_eq_left (by omega), List.take_length, List.take_of_length_le (by omega)]

theorem projectFrom_const (formatDate : Int → String) (now : Int) (i : Nat) (xs : List CFP) :
    projectFrom formatDate (fun _ => now) i xs = xs.map (toCFPResult formatDate now) := by
  induction xs generalizing i with
  | nil => rfl
  | cons x xs ih => simp [projectFrom, ih]

theorem projectAll_atInstant (lib : StdLib) (tFetch now : Int) (xs : List CFP) :
    projectAll lib (Clock.atInstant tFetch now) xs = xs.map (toCFPResult lib.formatDate now) :=
  projectFrom_const _ _ _ _

/-! ## C14: the payload of list_open_cfps -/

/-- C14. For every feed, clock and `limit >= 0`, `list_open_cfps` reports as totalOpen the
number of feed entries with `untilDate > now` (counted before limiting), as returned the
length of cfps, which is the minimum of totalOpen and the effective limit, and as cfps the
projections, in order, of the first `returned` open entries sorted by deadline. -/
theorem listOpenCFPs_payload (lib : StdLib) (up : Upstream) (cache : Option CFPCache)
    (clock : Clock) (args : ListOpenCFPsArgs) (feed : List CFP)
    (hfeed : (fetchCFPs up cache clock.fetch).result = .ok feed) (hlimit : 0 ≤ args.limit) :
    ∃ summary payload,
      (listOpenCFPs lib up cache clock args).1 = .returned (some summary) payload none ∧
      payload.totalOpen =
        ((feed.filter (fun cfp => decide (cfp.untilDate > clock.openMs))).length : Int) ∧
      payload.returned = (payload.cfps.length : Int) ∧
      payload.returned = min payload.totalOpen (effectiveLimit args.limit) ∧
      payload.cfps = projectAll lib clock
        ((sortByDeadline lib.sorter
          (feed.filter (fun cfp => decide (cfp.untilDate > clock.openMs)))).take
          payload.returned.toNat) := by
  have hpos := effectiveLimit_pos hlimit
  have hlen := (sortByDeadline_perm lib.sorter
    (feed.filter (fun cfp => decide (cfp.untilDate > clock.openMs)))).length_eq
  unfold listOpenCFPs
  rw [getOpenCFPs_ok hfeed]
  dsimp only
  unfold listOpenSelect
  rw [limitStep_of_nonneg _ _ (le_of_lt hpos)]
  dsimp only
  refine ⟨_, _, rfl, rfl, rfl, ?_, ?_⟩
  · dsimp only
    rw [length_projectAll, List.length_take, hlen]
    omega
  · dsimp only
    rw [length_projectAll, List.length_take, hlen, Int.toNat_ofNat, ← hlen, Nat.min_comm,
      take_min_length]

/-- Instance of C14: three feed entries, two of them open, limit 1. -/
theorem listOpenCFPs_payload_witness :
    ∃ (summary : String) (payload : ListOpenCFPsResponse),
      (listOpenCFPs exampleLib
          (upstreamServing [bareCFP "a" 30, bareCFP "b" 5, bareCFP "c" 20]) none
          (Clock.atInstant 0 10) { limit := 1 }).1 = .returned (some summary) payload none ∧
      payload.totalOpen = 2 ∧ payload.returned = 1 ∧
      payload.cfps = [toCFPResult exampleLib.formatDate 10 (bareCFP "c" 20)] := by
  obtain ⟨summary, payload, h1, h2, h3, h4, h5⟩ :=
    listOpenCFPs_payload exampleLib
      (upstreamServing [bareCFP "a" 30, bareCFP "b" 5, bareCFP "c" 20]) none
      (Clock.atInstant 0 10) { limit := 1 } [bareCFP "a" 30, bareCFP "b" 5, bareCFP "c" 20]
      rfl (by decide)
  have h2x : payload.totalOpen = 2 := h2
  have h4x : payload.returned = 1 := by
    rw [h4, h2x]
    decide
  refine ⟨summary, payload, h1, h2x, h4x, ?_⟩
  rw [h5, h4x]
  decide

/-! ## C16 and C17: errors and panics -/

/-- C16, as stated, fails for a negative limit: the snapshot is obtained, and the handler
of `list_open_cfps` called with `limit = -1` panics in the truncation, so it returns neither
a payload nor an error. -/
theorem negative_limit_returns_nothing :
    (fetchCFPs (upstreamServing [bareCFP "a" 5]) none 0).result = .ok [bareCFP "a" 5] ∧
    (listOpenCFPs exampleLib (upstreamServing [bareCFP "a" 5]) none (Clock.atInstant 0 1)
      { limit := -1 }).1 = .panicked :=
  ⟨rfl, rfl⟩

/-- C16, amended. When obtaining the snapshot fails, each of the four operations returns
that error unchanged with the zero-value payload and no summary. When it succeeds,
`find_closing_cfps` and, for `limit >= 0`, the three limited operations return a summary
and a payload and no error (with a negative limit the three limited operations return
nothing). No operation returns result entries together with an error. -/
theorem all_or_nothing (lib : StdLib) (up : Upstream) (cache : Option CFPCache)
    (clock : Clock) :
    (∀ err, (fetchCFPs up cache clock.fetch).result = .error err →
      (∀ args, (listOpenCFPs lib up cache clock args).1 =
        .returned none { totalOpen := 0, returned := 0, cfps := [] } (some err)) ∧
      (∀ args, (searchCFPsByKeyword lib up cache clock args).1 =
        .returned none { searchKeywords := [], totalMatches := 0, cfps := [] } (some err)) ∧
      (∀ args, (findClosingCFPs lib up cache clock args).1 =
        .returned none { daysAhead := 0, filterKeywords := "", urgentCFPs := 0, cfps := [] }
          (some err)) ∧
      (∀ args, (searchCFPsByLocation lib up cache clock args).1 =
        .returned none { searchLocation := "", totalMatches := 0, cfps := [] } (some err))) ∧
    (∀ feed, (fetchCFPs up cache clock.fetch).result = .ok feed →
      (∀ args : ListOpenCFPsArgs, 0 ≤ args.limit →
        ∃ summary payload,
          (listOpenCFPs lib up cache clock args).1 = .returned (some summary) payload none) ∧
      (∀ args : SearchByKeywordArgs, 0 ≤ args.limit →
        ∃ summary payload,
          (searchCFPsByKeyword lib up cache clock args).1 =
            .returned (some summary) payload none) ∧
      (∀ args : FindClosingCFPsArgs,
        ∃ summary payload,
          (findClosingCFPs lib up cache clock args).1 = .returned (some summary) payload none) ∧
      (∀ args : SearchByLocationArgs, 0 ≤ args.limit →
        ∃ summary payload,
          (searchCFPsByLocation lib up cache clock args).1 =
            .returned (some summary) payload none)) ∧
    ((∀ args summary payload err,
        (listOpenCFPs lib up cache clock args).1 = .returned summary payload (some err) →
        payload.cfps = []) ∧
      (∀ args summary payload err,
        (searchCFPsByKeyword lib up cache clock args).1 = .returned summary payload (some err) →
        payload.cfps = []) ∧
      (∀ args summary payload err,
        (findClosingCFPs lib up cache clock args).1 = .returned summary payload (some err) →
        payload.cfps = []) ∧
      (∀ args summary payload err,
        (searchCFPsByLocation lib up cache clock args).1 = .returned summary payload (some err) →
        payload.cfps = [])) := by
  refine ⟨?_, ?_, ?_, ?_, ?_, ?_⟩
  · intro err herr
    refine ⟨?_, ?_, ?_, ?_⟩ <;> intro args
    · unfold listOpenCFPs
      rw [getOpenCFPs_error herr]
    · unfold searchCFPsByKeyword
      rw [getOpenCFPs_error herr]
    · unfold findClosingCFPs
      rw [getOpenCFPs_error herr]
    · unfold searchCFPsByLocation
      rw [getOpenCFPs_error herr]
  · intro feed hfeed
    refine ⟨?_, ?_, ?_, ?_⟩
    · intro args hlimit
      unfold listOpenCFPs listOpenSelect
      rw [getOpenCFPs_ok hfeed]
      dsimp only
      rw [limitStep_of_nonneg _ _ (le_of_lt (effectiveLimit_pos hlimit))]
      exact ⟨_, _, rfl⟩
    · intro args hlimit
      unfold searchCFPsByKeyword searchByKeywordSelect
      rw [getOpenCFPs_ok hfeed]
      dsimp only
      rw [limitStep_of_nonneg _ _ (le_of_lt (effectiveLimit_pos hlimit))]
      exact ⟨_, _, rfl⟩
    · intro args
      unfold findClosingCFPs
      rw [getOpenCFPs_ok hfeed]
      exact ⟨_, _, rfl⟩
    · intro args hlimit
      unfold searchCFPsByLocation searchByLocationSelect
      rw [getOpenCFPs_ok hfeed]
      dsimp only
      rw [limitStep_of_nonneg _ _ (le_of_lt (effectiveLimit_pos hlimit))]
      exact ⟨_, _, rfl⟩
  · intro args summary payload err h
    unfold listOpenCFPs at h
    rcases getOpenCFPs_cases up cache clock with ⟨e, hg⟩ | hg
    · rw [hg] at h
      simp only [ToolOutcome.returned.injEq] at h
      rw [← h.2.1]
    · rw [hg] at h
      dsimp only at h
      split at h <;> simp at h
  · intro args summary payload err h
    unfold searchCFPsByKeyword at h
    rcases getOpenCFPs_cases up cache clock with ⟨e, hg⟩ | hg
    · rw [hg] at h
      simp only [ToolOutcome.returned.injEq] at h
      rw [← h.2.1]
    · rw [hg] at h
      dsimp only at h
      split at h <;> simp at h
  · intro args summary payload err h
    unfold findClosingCFPs at h
    rcases getOpenCFPs_cases up cache clock with ⟨e, hg⟩ | hg
    · rw [hg] at h
      simp only [ToolOutcome.returned.injEq] at h
      rw [← h.2.1]
    · rw [hg] at h
      simp at h
  · intro args summary payload err h
    unfold searchCFPsByLocation at h
    rcases getOpenCFPs_cases up cache clock with ⟨e, hg⟩ | hg
    · rw [hg] at h
      simp only [ToolOutcome.returned.injEq] at h
      rw [← h.2.1]
    · rw [hg] at h
      dsimp only at h
      split at h <;> simp at h

/-- Instance of the amended C16: an upstream answering 500 makes `find_closing_cfps` return
the error with the zero-value payload. -/
theorem all_or_nothing_witness :
    (findClosingCFPs exampleLib
        { get := .ok { statusCode := 500, body := .ok "" }, unmarshal := fun _ => .ok [] }
        none (Clock.atInstant 0 1) { daysAhead := 3, keywords := [] }).1 =
      .returned none { daysAhead := 0, filterKeywords := "", urgentCFPs := 0, cfps := [] }
        (some (.httpStatus 500)) :=
  ((all_or_nothing exampleLib
      { get := .ok { statusCode := 500, body := .ok "" }, unmarshal := fun _ => .ok [] }
      none (Clock.atInstant 0 1)).1 (.httpStatus 500) rfl).2.2.1
    { daysAhead := 3, keywords := [] }

/-- C17. In the three limited handlers the truncation is within bounds exactly when the
limit argument is non-negative. For `limit >= 0` the slice is taken only when
`len(list) > limit`, so that `0 <= limit < len(list)`, and the handler does not panic,
whatever the upstream does. For `limit < 0` the guard holds for every list, the empty one
included, the bound is negative, and the handler, having obtained the snapshot, panics
instead of returning. -/
theorem truncation_in_bounds (lib : StdLib) (up : Upstream) (cache : Option CFPCache)
    (clock : Clock) :
    (∀ (xs : List CFP) (limit : Int), 0 ≤ limit →
      (∃ out, limitStep xs (effectiveLimit limit) = some out) ∧
      ((xs.length : Int) > effectiveLimit limit →
        0 ≤ effectiveLimit limit ∧ effectiveLimit limit < xs.length)) ∧
    (∀ (xs : List CFP) (limit : Int), limit < 0 →
      (xs.length : Int) > effectiveLimit limit ∧ effectiveLimit limit < 0 ∧
      limitStep xs (effectiveLimit limit) = none) ∧
    ((∀ args : ListOpenCFPsArgs, 0 ≤ args.limit →
        (listOpenCFPs lib up cache clock args).1 ≠ .panicked) ∧
      (∀ args : SearchByKeywordArgs, 0 ≤ args.limit →
        (searchCFPsByKeyword lib up cache clock args).1 ≠ .panicked) ∧
      (∀ args : SearchByLocationArgs, 0 ≤ args.limit →
        (searchCFPsByLocation lib up cache clock args).1 ≠ .panicked)) ∧
    (∀ feed, (fetchCFPs up cache clock.fetch).result = .ok feed →
      (∀ args : ListOpenCFPsArgs, args.limit < 0 →
        (listOpenCFPs lib up cache clock args).1 = .panicked) ∧
      (∀ args : SearchByKeywordArgs, args.limit < 0 →
        (searchCFPsByKeyword lib up cache clock args).1 = .panicked) ∧
      (∀ args : SearchByLocationArgs, args.limit < 0 →
        (searchCFPsByLocation lib up cache clock args).1 = .panicked)) := by
  refine ⟨?_, ?_, ⟨?_, ?_, ?_⟩, ?_⟩
  · intro xs limit h
    have hpos := effectiveLimit_pos h
    exact ⟨⟨_, limitStep_of_nonneg _ _ (le_of_lt hpos)⟩, fun hgt => ⟨le_of_lt hpos, hgt⟩⟩
  · intro xs limit h
    rw [effectiveLimit_neg h]
    exact ⟨by omega, h, limitStep_of_neg xs h⟩
  · intro args hlimit
    unfold listOpenCFPs listOpenSelect
    rcases getOpenCFPs_cases up cache clock with ⟨e, hg⟩ | hg
    · rw [hg]
      simp
    · rw [hg]
      dsimp only
      rw [limitStep_of_nonneg _ _ (le_of_lt (effectiveLimit_pos hlimit))]
      simp
  · intro args hlimit
    unfold searchCFPsByKeyword searchByKeywordSelect
    rcases getOpenCFPs_cases up cache clock with ⟨e, hg⟩ | hg
    · rw [hg]
      simp
    · rw [hg]
      dsimp only
      rw [limitStep_of_nonneg _ _ (le_of_lt (effectiveLimit_pos hlimit))]
      simp
  · intro args hlimit
    unfold searchCFPsByLocation searchByLocationSelect
    rcases getOpenCFPs_cases up cache clock with ⟨e, hg⟩ | hg
    · rw [hg]
      simp
    · rw [hg]
      dsimp only
      rw [limitStep_of_nonneg _ _ (le_of_lt (effectiveLimit_pos hlimit))]
      simp
  · intro feed hfeed
    refine ⟨?_, ?_, ?_⟩
    · intro args hlimit
      unfold listOpenCFPs listOpenSelect
      rw [getOpenCFPs_ok hfeed]
      dsimp only
      rw [effectiveLimit_neg hlimit, limitStep_of_neg _ hlimit]
    · intro args hlimit
      unfold searchCFPsByKeyword searchByKeywordSelect
      rw [getOpenCFPs_ok hfeed]
      dsimp only
      rw [effectiveLimit_neg hlimit, limitStep_of_neg _ hlimit]
    · intro args hlimit
      unfold searchCFPsByLocation searchByLocationSelect
      rw [getOpenCFPs_ok hfeed]
      dsimp only
      rw [effectiveLimit_neg hlimit, limitStep_of_neg _ hlimit]

/-- Instance of C17: `search_cfps_by_location` with `limit = -3` on an empty feed panics,
and with `limit = 3` it does not. -/
theorem truncation_in_bounds_witness :
    (searchCFPsByLocation exampleLib (upstreamServing []) none (Clock.atInstant 0 1)
      { location := "", limit := -3 }).1 = .panicked ∧
    (searchCFPsByLocation exampleLib (upstreamServing []) none (Clock.atInstant 0 1)
      { location := "", limit := 3 }).1 ≠ .panicked :=
  ⟨((truncation_in_bounds exampleLib (upstreamServing []) none (Clock.atInstant 0 1)).2.2.2
      [] rfl).2.2 { location := "", limit := -3 } (by decide),
   (truncation_in_bounds exampleLib (upstreamServing []) none (Clock.atInstant 0 1)).2.2.1.2.2
      { location := "", limit := 3 } (by decide)⟩

/-! ## C18: totalMatches -/

/-- C18. For every feed, clock, query and `limit >= 0`, the totalMatches field of
`search_cfps_by_keyword` and of `search_cfps_by_location` is the number of entries of the
returned cfps, counted after the limit is applied: it is the minimum of the number of open
CFPs matching the query and the effective limit, hence never more than the effective limit
even when more open CFPs match. -/
theorem totalMatches_after_limit (lib : StdLib) (up : Upstream) (cache : Option CFPCache)
    (clock : Clock) (feed : List CFP)
    (hfeed : (fetchCFPs up cache clock.fetch).result = .ok feed) :
    (∀ args : SearchByKeywordArgs, 0 ≤ args.limit →
      ∃ summary payload,
        (searchCFPsByKeyword lib up cache clock args).1 =
          .returned (some summary) payload none ∧
        payload.totalMatches = (payload.cfps.length : Int) ∧
        payload.totalMatches ≤ effectiveLimit args.limit ∧
        payload.totalMatches =
          min (((feed.filter (fun cfp => decide (cfp.untilDate > clock.openMs))).filter
            (fun cfp => matchesKeywords lib.toLower cfp args.keywords)).length : Int)
            (effectiveLimit args.limit)) ∧
    (∀ args : SearchByLocationArgs, 0 ≤ args.limit →
      ∃ summary payload,
        (searchCFPsByLocation lib up cache clock args).1 =
          .returned (some summary) payload none ∧
        payload.totalMatches = (payload.cfps.length : Int) ∧
        payload.totalMatches ≤ effectiveLimit args.limit ∧
        payload.totalMatches =
          min (((feed.filter (fun cfp => decide (cfp.untilDate > clock.openMs))).filter
            (fun cfp => matchesLocation lib.toLower cfp args.location)).length : Int)
            (effectiveLimit args.limit)) := by
  constructor
  · intro args hlimit
    have hpos := effectiveLimit_pos hlimit
    have hlen := (sortByDeadline_perm lib.sorter
      ((feed.filter (fun cfp => decide (cfp.untilDate > clock.openMs))).filter
        (fun cfp => matchesKeywords lib.toLower cfp args.keywords))).length_eq
    unfold searchCFPsByKeyword searchByKeywordSelect
    rw [getOpenCFPs_ok hfeed]
    dsimp only
    rw [appendIf_eq_filter, limitStep_of_nonneg _ _ (le_of_lt hpos)]
    dsimp only
    refine ⟨_, _, rfl, rfl, ?_, ?_⟩
    · dsimp only
      rw [length_projectAll, List.length_take]
      omega
    · dsimp only
      rw [length_projectAll, List.length_take, hlen]
      omega
  · intro args hlimit
    have hpos := effectiveLimit_pos hlimit
    have hlen := (sortByDeadline_perm lib.sorter
      ((feed.filter (fun cfp => decide (cfp.untilDate > clock.openMs))).filter
        (fun cfp => matchesLocation lib.toLower cfp args.location))).length_eq
    unfold searchCFPsByLocation searchByLocationSelect
    rw [getOpenCFPs_ok hfeed]
    dsimp only
    rw [appendIf_eq_filter, limitStep_of_nonneg _ _ (le_of_lt hpos)]
    dsimp only
    refine ⟨_, _, rfl, rfl, ?_, ?_⟩
    · dsimp only
      rw [length_projectAll, List.length_take]
      omega
    · dsimp only
      rw [length_projectAll, List.length_take, hlen]
      omega

/-- Instance of C18: three open CFPs match the empty keyword list, the limit is 2, and
totalMatches is 2. -/
theorem totalMatches_after_limit_witness :
    ∃ (summary : String) (payload : SearchByKeywordResponse),
      (searchCFPsByKeyword exampleLib
          (upstreamServing [bareCFP "a" 30, bareCFP "b" 50, bareCFP "c" 20]) none
          (Clock.atInstant 0 10) { keywords := [], limit := 2 }).1 =
        .returned (some summary) payload none ∧
      payload.totalMatches = 2 := by
  obtain ⟨summary, payload, h1, _, _, h4⟩ :=
    (totalMatches_after_limit exampleLib
      (upstreamServing [bareCFP "a" 30, bareCFP "b" 50, bareCFP "c" 20]) none
      (Clock.atInstant 0 10) [bareCFP "a" 30, bareCFP "b" 50, bareCFP "c" 20] rfl).1
      { keywords := [], limit := 2 } (by decide)
  exact ⟨summary, payload, h1, h4.trans (by decide)⟩

/-! ## C19: day counts of find_closing_cfps -/

/-- C19, as stated, fails when the addition of the bias overflows: at `now = 0` with
`daysAhead = 106751991167` a CFP due exactly at the end of the window is returned with a
negative day count. -/
theorem findClosing_daysRemaining_overflow :
    (findClosingCFPs exampleLib (upstreamServing [bareCFP "a" 9223372036828800000]) none
        (Clock.atInstant 0 0)
        { daysAhead := 106751991167, keywords := [] }).1.entries (fun p => p.cfps) =
      [toCFPResult exampleLib.formatDate 0 (bareCFP "a" 9223372036828800000)] ∧
    (toCFPResult exampleLib.formatDate 0 (bareCFP "a" 9223372036828800000)).daysRemaining =
      -106751991166 := by
  constructor <;> decide

theorem findClosingSelect_mem {lib : StdLib} {openCFPs : List CFP} {now daysAhead : Int}
    {keywords : List String} {cfp : CFP}
    (h : cfp ∈ findClosingSelect lib openCFPs now daysAhead keywords) :
    cfp ∈ openCFPs ∧ cfp.untilDate ≤ maxDate now daysAhead ∧ now ≤ cfp.untilDate := by
  unfold findClosingSelect at h
  rw [appendIf_eq_filter] at h
  have hm := List.mem_filter.mp ((sortByDeadline_perm lib.sorter _).subset h)
  have hw := hm.2
  simp only [inWindow, Bool.and_eq_true, decide_eq_true_eq] at hw
  exact ⟨hm.1, hw.1.1, hw.1.2⟩

/-- C19, amended. For `daysAhead >= 1` (after default substitution) such that
`now + daysAhead*86400000` and `daysAhead*86400000 + 86399999` are computed without `int64`
overflow, when the open filter, the window filter and the projection are evaluated at one
instant `now`, every entry returned by `find_closing_cfps` has
`1 <= daysRemaining <= daysAhead`, and the daysRemaining values are non-decreasing along
the returned list. -/
theorem findClosing_daysRemaining (lib : StdLib) (up : Upstream) (cache : Option CFPCache)
    (tFetch now : Int) (args : FindClosingCFPsArgs)
    (hdays : 1 ≤ effectiveDaysAhead args.daysAhead)
    (hadd : inInt64 (now + effectiveDaysAhead args.daysAhead * 86400000))
    (hfit : effectiveDaysAhead args.daysAhead * 86400000 + 86399999 ≤ 9223372036854775807) :
    (∀ r ∈ (findClosingCFPs lib up cache (Clock.atInstant tFetch now) args).1.entries
        (fun p => p.cfps),
      1 ≤ r.daysRemaining ∧ r.daysRemaining ≤ effectiveDaysAhead args.daysAhead) ∧
    ((findClosingCFPs lib up cache (Clock.atInstant tFetch now) args).1.entries
        (fun p => p.cfps)).Pairwise (fun a b => a.daysRemaining ≤ b.daysRemaining) := by
  have hmul : inInt64 (effectiveDaysAhead args.daysAhead * 86400000) := by
    unfold inInt64
    omega
  have hmax := maxDate_eq hmul hadd
  have hday : ∀ c : CFP, (toCFPResult lib.formatDate now c).daysRemaining =
      daysRemaining c.untilDate now := by
    intro c
    unfold toCFPResult
    cases c.conf <;> rfl
  have hin : ∀ c : CFP, now < c.untilDate →
      c.untilDate ≤ now + effectiveDaysAhead args.daysAhead * 86400000 →
      daysRemaining c.untilDate now = (c.untilDate - now + 86399999) / 86400000 := by
    intro c h1 h2
    exact daysRemaining_eq_ediv (by unfold inInt64; omega) (by unfold inInt64; omega) (by omega)
  unfold findClosingCFPs
  rcases getOpenCFPs_cases up cache (Clock.atInstant tFetch now) with ⟨e, hg⟩ | hg
  · rw [hg]
    exact ⟨by simp [ToolOutcome.entries], by simp [ToolOutcome.entries]⟩
  · rw [hg]
    simp only [ToolOutcome.entries, projectAll_atInstant]
    have hmem : ∀ c ∈ findClosingSelect lib
        ((fetchedFeed up cache (Clock.atInstant tFetch now)).filter
          (fun cfp => decide (cfp.untilDate > (Clock.atInstant tFetch now).openMs)))
        (Clock.atInstant tFetch now).windowMs (effectiveDaysAhead args.daysAhead) args.keywords,
        now < c.untilDate ∧
        c.untilDate ≤ now + effectiveDaysAhead args.daysAhead * 86400000 := by
      intro c hc
      have h := findClosingSelect_mem hc
      have hopen := (List.mem_filter.mp h.1).2
      simp only [Clock.atInstant, decide_eq_true_eq] at hopen
      have hw := h.2.1
      simp only [Clock.atInstant] at hw
      rw [hmax] at hw
      exact ⟨hopen, hw⟩
    constructor
    · intro r hr
      obtain ⟨c, hc, rfl⟩ := List.mem_map.mp hr
      obtain ⟨h1, h2⟩ := hmem c hc
      rw [hday, hin c h1 h2]
      omega
    · rw [List.pairwise_map]
      refine (sortByDeadline_pairwise lib.sorter _).imp_of_mem ?_
      intro a b ha hb hab
      obtain ⟨ha1, ha2⟩ := hmem a ha
      obtain ⟨hb1, hb2⟩ := hmem b hb
      rw [hday, hday, hin a ha1 ha2, hin b hb1 hb2]
      omega

/-- Instance of the amended C19: `daysAhead = 7`, CFPs due in 1 ms, in 2 days and in exactly
7 days get the day counts 1, 2 and 7. -/
theorem findClosing_daysRemaining_witness :
    ((findClosingCFPs exampleLib
        (upstreamServing
          [bareCFP "c" 1700604800000, bareCFP "a" 1700000000001, bareCFP "b" 1700172800000])
        none (Clock.atInstant 0 1700000000000)
        { daysAhead := 7, keywords := [] }).1.entries (fun p => p.cfps)).map
      (fun r => r.daysRemaining) = [1, 2, 7] ∧
    ((findClosingCFPs exampleLib
        (upstreamServing
          [bareCFP "c" 1700604800000, bareCFP "a" 1700000000001, bareCFP "b" 1700172800000])
        none (Clock.atInstant 0 1700000000000)
        { daysAhead := 7, keywords := [] }).1.entries (fun p => p.cfps)).Pairwise
      (fun a b => a.daysRemaining ≤ b.daysRemaining) :=
  ⟨by decide,
   (findClosing_daysRemaining exampleLib
      (upstreamServing
        [bareCFP "c" 1700604800000, bareCFP "a" 1700000000001, bareCFP "b" 1700172800000])
      none 0 1700000000000 { daysAhead := 7, keywords := [] }
      (by decide) (by decide) (by decide)).2⟩

end DevEvents
